import Mathlib

/-!
# CloudPaste upload orchestration core — shallow embedding and verification

This file embeds, in Lean 4, the upload orchestration and path-resolution
core of the CloudPaste repository:

* `src/backend/src/routes/s3UploadRoutes.js` — the presign, commit, and
  direct-upload HTTP handlers together with the slug allocator
  (`generateUniqueFileSlug`) and their quota / path helpers;
* `src/unnamed/part_000` — the API-key service, in particular
  `getAccessibleMountsByBasicPath` and the API-key expiry handling of
  `createApiKey` / `updateApiKey`.

Strings are modelled as `List Char` (`Str`), matching JavaScript strings
over the ASCII inputs the routes deal with.  JavaScript numbers that hold
byte counts, ceilings or view counters are modelled as `Int`.  The D1
database is modelled as explicit lists of rows; SQL `SELECT ... LIMIT 1` /
`.first()` becomes `List.find?`, `DELETE` becomes `List.filter`, `UPDATE`
becomes `List.map`, and `INSERT` appends.  External collaborators that the
spec scopes out (MIME sniffing, password hashing, S3 clients, the
store-specific sub-path normalizer, clock and id generation) are passed in
as an `ExtFns` record of opaque functions, exactly as the routes receive them
as imports.
-/

/-- JavaScript strings over the route's inputs, as lists of characters. -/
abbrev Str := List Char

/-- Conversion from a Lean string literal to the model's string type. -/
def str (s : String) : Str := s.data

/-- JavaScript truthiness of a string: `""` is falsy. -/
def strTruthy (s : Str) : Bool := !s.isEmpty

/-- JavaScript truthiness of a nullable string field (`undefined`/`null`/`""` are falsy). -/
def optStrTruthy : Option Str → Bool
  | none => false
  | some s => strTruthy s

/-- `a.startsWith(b)` on the model's strings. -/
def strStartsWith (s p : Str) : Bool := p.isPrefixOf s

/-- `s.endsWith("/")` on the model's strings. -/
def endsWithSlash (s : Str) : Bool := s.getLast? == some '/'

/-- `s.replace(/\/+$/, "")`: strip every trailing `'/'`. -/
def dropTrailingSlashes (s : Str) : Str := (s.reverse.dropWhile (· == '/')).reverse

/-- Whitespace for `String.prototype.trim` (the characters that occur in the inputs). -/
def isJsWhitespace (c : Char) : Bool := c == ' ' || c == '\t' || c == '\n' || c == '\r'

/-- `s.trim()` on the model's strings. -/
def trimStr (s : Str) : Str :=
  ((s.dropWhile isJsWhitespace).reverse.dropWhile isJsWhitespace).reverse

/-- The value of a JSON / query field that the routes run through `parseInt`:
either a number, a non-numeric string (`parseInt` yields `NaN`), or an
absent / `null` field. -/
inductive JsNum where
  | num (n : Int)
  | nonNumeric
  | absent
  deriving DecidableEq, Repr

/-- The caller's authentication type as reported by `PermissionUtils.getAuthType`. -/
inductive AuthType where
  | admin
  | apikey
  | other
  deriving DecidableEq, Repr

/-- A row of the `files` table (`FileRecord` of the spec).  Nullable columns
are `Option`s; columns that a given `INSERT` does not mention keep their
database default `NULL`. -/
structure FileRecord where
  id : Str
  slug : Str
  filename : Str
  storage_path : Str
  s3_url : Str
  s3_config_id : Str
  mimetype : Str
  size : Int
  etag : Option Str
  created_by : Option Str
  remark : Option Str
  password : Option Str
  expires_at : Option Str
  max_views : Option Int
  use_proxy : Option Int
  deriving DecidableEq, Repr

/-- A row of the `s3_configs` table (`StorageConfig` of the spec). -/
structure S3Config where
  id : Str
  admin_id : Option Str
  is_public : Int
  is_default : Int
  total_storage_bytes : Option Int
  default_folder : Option Str
  provider_type : Str
  bucket_name : Str
  deriving DecidableEq, Repr

/-- A storage-mount row as produced by the query in
`getAccessibleMountsByBasicPath` (`storage_mounts` LEFT JOINed with the
`is_public` flag of its `s3_configs` row; `is_public = none` models the
`NULL` a dangling join produces). -/
structure MountRow where
  name : Str
  storage_type : Str
  storage_config_id : Str
  mount_path : Str
  is_public : Option Int
  deriving DecidableEq, Repr

/-- The metadata store: the `files` table and the `file_passwords` shadow
table (pairs of file id and plaintext password). -/
structure Db where
  files : List FileRecord
  filePasswords : List (Str × Str)
  deriving DecidableEq, Repr

/-!
## `getAccessibleMountsByBasicPath` (src/unnamed/part_000, lines 282–338)
-/

/-- The filter predicate of `getAccessibleMountsByBasicPath`, translated
clause for clause: an S3-type mount whose joined `is_public` flag is not
`1` is discarded; otherwise the basic path and the mount path are
normalized (`replace(/\/+$/, "")`, with an empty mount path falling back to
`"/"` via `|| "/"`) and the three path cases are tested in order. -/
def mountRowAccessible (basicPath : Str) (m : MountRow) : Bool :=
  if m.storage_type == str "S3" && !(m.is_public == some 1) then
    false
  else
    let normalizedBasicPath := if basicPath == str "/" then str "/" else dropTrailingSlashes basicPath
    let normalizedMountPath :=
      let x := dropTrailingSlashes m.mount_path
      if x.isEmpty then str "/" else x
    if normalizedBasicPath == str "/" then true
    else if normalizedMountPath == normalizedBasicPath
         || strStartsWith normalizedMountPath (normalizedBasicPath ++ str "/") then true
    else if strStartsWith normalizedBasicPath (normalizedMountPath ++ str "/") then true
    else false

/-- `getAccessibleMountsByBasicPath`: filter the active mount rows by the
basic path and the public flag.  The SQL `WHERE sm.is_active = 1` and the
`ORDER BY` happen in the query; the function receives its result rows. -/
def getAccessibleMountsByBasicPath (basicPath : Str) (rows : List MountRow) : List MountRow :=
  rows.filter (mountRowAccessible basicPath)

/-!
Spec-side formalisation of mount accessibility (claim C3).  Normalization
follows the spec's §4.1 convention: trailing slashes are stripped and the
root path is the singleton `"/"` (a mount path consisting only of slashes
normalizes to `"/"`).
-/

/-- Spec normalization of a mount path: strip trailing slashes; the root
path is the singleton `"/"`. -/
def specNormMountPath (p : Str) : Str :=
  let x := dropTrailingSlashes p
  if x = [] then str "/" else x

/-- Spec: the mount's storage is not an S3-type mount on a non-public
StorageConfig. -/
def specMountPublicOk (m : MountRow) : Prop :=
  ¬(m.storage_type = str "S3" ∧ m.is_public ≠ some 1)

/-- Spec: the mount path equals the basic path, both taken after trailing
slashes are stripped. -/
def specMountEqualsBasic (basicPath : Str) (m : MountRow) : Prop :=
  specNormMountPath m.mount_path = dropTrailingSlashes basicPath

/-- Spec: the mount path is a descendant of the basic path (the mount is
nested inside the basic path), on the normalized paths. -/
def specMountDescendantOfBasic (basicPath : Str) (m : MountRow) : Prop :=
  strStartsWith (specNormMountPath m.mount_path) (dropTrailingSlashes basicPath ++ str "/") = true

/-- Spec: the mount path is an ancestor of the basic path (the basic path
is nested inside the mount), on the normalized paths. -/
def specMountAncestorOfBasic (basicPath : Str) (m : MountRow) : Prop :=
  strStartsWith (dropTrailingSlashes basicPath) (specNormMountPath m.mount_path ++ str "/") = true

/-- Spec-side accessibility of a mount under a basic path, exactly as
claim C3 words it. -/
def specMountAccessible (basicPath : Str) (m : MountRow) : Prop :=
  specMountPublicOk m ∧
    (basicPath = str "/" ∨ specMountEqualsBasic basicPath m ∨
      specMountDescendantOfBasic basicPath m ∨ specMountAncestorOfBasic basicPath m)

/-!
## Slug allocator (`generateUniqueFileSlug`, s3UploadRoutes.js lines 26–64)
-/

/-- The errors `generateUniqueFileSlug` throws, distinguished the way the
callers distinguish them (the conflict message is matched on; a format
error surfaces as an internal error; exhausting the random attempts is the
transient error). -/
inductive SlugError where
  | invalidFormat
  | conflict
  | exhausted
  deriving DecidableEq, Repr

/-- One character of the slug format `[a-zA-Z0-9_-]`. -/
def isSlugChar (c : Char) : Bool :=
  ('a' ≤ c && c ≤ 'z') || ('A' ≤ c && c ≤ 'Z') || ('0' ≤ c && c ≤ '9') || c == '_' || c == '-'

/-- The regex `^[a-zA-Z0-9_-]+$`. -/
def slugFormatOk (s : Str) : Bool := !s.isEmpty && s.all isSlugChar

/-- The existence probe `SELECT id FROM files WHERE slug = ?`. -/
def slugExists (files : List FileRecord) (s : Str) : Bool := files.any (fun f => f.slug == s)

/-- The random-slug loop: up to `maxAttempts` draws from the short-id
generator (modelled as a stream indexed by the attempt number). -/
def randomSlugLoop (files : List FileRecord) (gen : Nat → Str) : Nat → Nat → Except SlugError Str
  | 0, _ => .error .exhausted
  | fuel + 1, attempt =>
    let randomSlug := gen attempt
    if !slugExists files randomSlug then .ok randomSlug
    else randomSlugLoop files gen fuel (attempt + 1)

/-- `generateUniqueFileSlug(db, customSlug, override)`.  A custom slug is
"given" exactly when it is truthy (JavaScript `if (customSlug)`): a `null`
or empty slug falls through to the random generator.  A given slug must
match `^[a-zA-Z0-9_-]+$`; a taken slug without `override` is a conflict;
otherwise the custom slug is returned unchanged. -/
def generateUniqueFileSlug (files : List FileRecord) (customSlug : Option Str)
    (override : Bool) (gen : Nat → Str) : Except SlugError Str :=
  match customSlug with
  | some s =>
    if strTruthy s then
      if !slugFormatOk s then .error .invalidFormat
      else if slugExists files s && !override then .error .conflict
      else .ok s
    else randomSlugLoop files gen 10 0
  | none => randomSlugLoop files gen 10 0

/-!
## Quota guard (s3UploadRoutes.js lines 135–167, 423–469, 712–734)
-/

/-- `SELECT SUM(size) FROM files WHERE s3_config_id = ?`, with the
`?.total_used || 0` fallback: the sum of `size` over every file row
referencing the configuration. -/
def usageOf (files : List FileRecord) (cfgId : Str) : Int :=
  (files.filter (fun f => f.s3_config_id == cfgId)).foldr (fun f acc => f.size + acc) 0

/-- `SELECT SUM(size) FROM files WHERE s3_config_id = ? AND id != ?`:
the commit-time usage, excluding the record being committed. -/
def usageExcluding (files : List FileRecord) (cfgId fid : Str) : Int :=
  (files.filter (fun f => f.s3_config_id == cfgId && !(f.id == fid))).foldr
    (fun f acc => f.size + acc) 0

/-- The capacity test shared by the three checks: with no configured
ceiling (`total_storage_bytes IS NULL`) nothing is rejected; otherwise the
write is rejected exactly when `usage + incoming > ceiling`. -/
def capacityRejects (ceiling : Option Int) (usage incoming : Int) : Bool :=
  match ceiling with
  | none => false
  | some c => usage + incoming > c

/-!
## Mount sorting and longest-prefix sub-path resolution
(s3UploadRoutes.js lines 245–298 and 839–892; the two blocks are identical)
-/

/-- Insert a mount into a list already sorted by descending
`mount_path.length`, keeping the stable order of JavaScript
`sort((a, b) => b.mount_path.length - a.mount_path.length)`. -/
def insertMountDesc (m : MountRow) : List MountRow → List MountRow
  | [] => [m]
  | x :: xs =>
    if x.mount_path.length ≤ m.mount_path.length then m :: x :: xs
    else x :: insertMountDesc m xs

/-- Stable sort of the accessible mounts by descending mount-path length. -/
def sortMountsDesc : List MountRow → List MountRow
  | [] => []
  | m :: ms => insertMountDesc m (sortMountsDesc ms)

/-- `mount.mount_path.startsWith("/") ? mount.mount_path : "/" + mount.mount_path`. -/
def fixLeadingSlash (p : Str) : Str :=
  if strStartsWith p (str "/") then p else str "/" ++ p

/-- The match test of the resolution loop: the basic path equals the mount
path, or equals it with a trailing slash, or lies strictly below it. -/
def mountMatches (basicPath mountPath : Str) : Bool :=
  basicPath == mountPath || basicPath == mountPath ++ str "/"
    || strStartsWith basicPath (mountPath ++ str "/")

/-- The body of the resolution loop: skip mounts of other configurations,
and on the first matching mount compute the sub-path by stripping the
mount path off the basic path and guaranteeing a leading slash.  The
sub-path is returned as it stands right before `normalizeS3SubPath`. -/
def findMountSubPath (cfgId basicPath : Str) : List MountRow → Option (MountRow × Str)
  | [] => none
  | m :: ms =>
    if !(m.storage_config_id == cfgId) then findMountSubPath cfgId basicPath ms
    else if mountMatches basicPath (fixLeadingSlash m.mount_path) then
      some (m,
        if strStartsWith (basicPath.drop (fixLeadingSlash m.mount_path).length) (str "/") then
          basicPath.drop (fixLeadingSlash m.mount_path).length
        else str "/" ++ basicPath.drop (fixLeadingSlash m.mount_path).length)
    else findMountSubPath cfgId basicPath ms

/-- Longest-prefix resolution: sort the accessible mounts by descending
mount-path length and take the first match for the target configuration. -/
def resolveSubPath (mounts : List MountRow) (cfgId basicPath : Str) : Option (MountRow × Str) :=
  findMountSubPath cfgId basicPath (sortMountsDesc mounts)

/-!
## External collaborators and shared helpers of the handlers
-/

/-- The external collaborators the routes import, passed in as opaque
functions: MIME inference, filename splitting/sanitising, the S3 sub-path
normalizer, password hashing, URL construction, and the clock
(`nowPlusHours h` is the ISO string of now plus `h` hours). -/
structure ExtFns where
  getMimeTypeFromFilename : Str → Str
  getFileNameAndExt : Str → Str × Str
  getSafeFileName : Str → Str
  normalizeS3SubPath : Str → S3Config → Str
  hashPassword : Str → Str
  buildS3Url : S3Config → Str → Str
  nowPlusHours : Int → Str

/-- The error classes of the routes' responses. -/
inductive ErrKind where
  | badRequest
  | sizeLimitExceeded
  | capacityExceeded
  | notFound
  | forbidden
  | conflict
  | internal
  deriving DecidableEq, Repr

/-- The result of a handler: success or one of the error responses. -/
inductive Outcome where
  | ok
  | err (e : ErrKind)
  deriving DecidableEq, Repr

/-- A handler run: the response outcome, the database afterwards, and the
storage paths for which an object-store delete was issued
(`deleteFileFromS3` calls).  Cache invalidation and ancestor-directory
touching are calls on external collaborators with no modelled state. -/
structure Res where
  outcome : Outcome
  db : Db
  s3Deleted : List Str
  deriving Repr

/-- `created_by` written by the presign `INSERT` (line 337):
`authType === "admin" ? userId : authType === "apikey" ? `apikey:${userId}` : null`. -/
def presignCreatedBy (authType : AuthType) (userId : Str) : Option Str :=
  match authType with
  | .admin => some userId
  | .apikey => some (str "apikey:" ++ userId)
  | .other => none

/-- The `creator` written by the commit `UPDATE` (line 505):
`authType === "admin" ? userId : `apikey:${userId}``. -/
def commitCreator (authType : AuthType) (userId : Str) : Str :=
  match authType with
  | .admin => userId
  | _ => str "apikey:" ++ userId

/-- `created_by` written by the direct-upload `INSERT` (line 1048) and
compared against by its override check (line 778):
`isAdmin ? userId : `apikey:${userId}``. -/
def directCreatedBy (isAdmin : Bool) (userId : Str) : Str :=
  if isAdmin then userId else str "apikey:" ++ userId

/-- The expiry both file-record flows store: commit parses
`body.expires_in` hours (lines 478–487) and the direct flow parses the
`expires_in` query (lines 750, 1003–1010); a positive hour count maps to
`now + h` hours, everything else (absent, `null`, zero, negative,
non-numeric — `parseInt` `NaN`) leaves the column `NULL`. -/
def fileExpiresAt (nowPlusHours : Int → Str) : JsNum → Option Str
  | .num n => if 0 < n then some (nowPlusHours n) else none
  | _ => none

/-- `body.etag || null` / `body.remark || null`: an absent or empty string
field is stored as `NULL`. -/
def orNull (v : Option Str) : Option Str :=
  match v with
  | some s => if strTruthy s then some s else none
  | none => none

/-- The commit `max_views`: `body.max_views ? parseInt(body.max_views) : null`
(a `NaN` parse is stored as `NULL` by the driver). -/
def commitMaxViews : JsNum → Option Int
  | .num n => if n = 0 then none else some n
  | _ => none

/-- The commit size column value: `body.size` is truthy, parsed, and
clamped to be non-negative; a falsy `body.size` leaves the column alone
(the `CASE WHEN` in the `UPDATE`). -/
def commitFileSize : Option Int → Option Int
  | some s => if s = 0 then none else some (if s < 0 then 0 else s)
  | none => none

/-- `parseInt(body.size || 0)`: the size used by the commit capacity check. -/
def commitIncomingSize : Option Int → Int
  | some s => s
  | none => 0

/-- The custom-path treatment shared by presign (lines 226–234) and the
direct flow (lines 738–746): a path that is truthy and not all whitespace
is trimmed and given a trailing slash; anything else is used as-is. -/
def processCustomPath (p : Option Str) : Str :=
  let customPath := p.getD []
  if strTruthy customPath && strTruthy (trimStr customPath) then
    let t := trimStr customPath
    if endsWithSlash t then t else t ++ str "/"
  else customPath

/-- The default-folder prefix (lines 285, 291, 296, …): a truthy
`default_folder` gets a trailing slash if it lacks one; otherwise `""`. -/
def folderOf (cfg : S3Config) : Str :=
  match cfg.default_folder with
  | some f => if !strTruthy f then [] else if endsWithSlash f then f else f ++ str "/"
  | none => []

/-- The storage-path computation shared by presign (lines 244–298) and the
direct flow (lines 838–892).  For an API-key caller with a truthy,
non-root basic path it checks mount permission (403 on failure), resolves
the longest-matching mount's sub-path and feeds it through
`normalizeS3SubPath`; every other caller just uses the default folder.
The final component is `shortId + "-" + safeName + ext`, with the short-id
prefix dropped when the direct flow's `original_filename` flag is set. -/
def computeStoragePath (ext : ExtFns) (cfg : S3Config) (authType : AuthType)
    (basicPath : Option Str) (mounts : List MountRow) (customPath : Str)
    (shortId safeFileName fileExt : Str) (useOriginalFilename : Bool) :
    Except ErrKind Str :=
  let fileNamePart := (if useOriginalFilename then [] else shortId ++ str "-") ++ safeFileName ++ fileExt
  let folderPath := folderOf cfg
  match authType, basicPath with
  | .apikey, some bp =>
    if strTruthy bp && !(bp == str "/") then
      if !(mounts.any (fun m => m.storage_config_id == cfg.id)) then .error .forbidden
      else
        let actualStoragePath :=
          match resolveSubPath mounts cfg.id bp with
          | some (_, subPath) => ext.normalizeS3SubPath subPath cfg
          | none => []
        .ok (actualStoragePath ++ folderPath ++ customPath ++ fileNamePart)
    else .ok (folderPath ++ customPath ++ fileNamePart)
  | .apikey, none => .ok (folderPath ++ customPath ++ fileNamePart)
  | _, _ => .ok (folderPath ++ customPath ++ fileNamePart)

/-- The override cleanup both flows run once they decide to delete the
prior record with the reused slug (presign lines 195–221, direct lines
786–812): delete the object from the store when the record's configuration
still exists, then delete the file row and its password shadow. -/
def deleteExistingFileRecord (cfgs : List S3Config) (db : Db) (ex : FileRecord) :
    Db × List Str :=
  let deleted :=
    match cfgs.find? (fun c => c.id == ex.s3_config_id) with
    | some _ => [ex.storage_path]
    | none => []
  (⟨db.files.filter (fun f => !(f.id == ex.id)),
    db.filePasswords.filter (fun p => !(p.1 == ex.id))⟩, deleted)

/-- JavaScript truthiness of a nullable numeric field (`0` and absent are falsy). -/
def sizeTruthy : Option Int → Bool
  | some s => s != 0
  | none => false

/-- The `max_views` the direct flow stores:
`c.req.query("max_views") ? parseInt(...) : 0`, then
`maxViews > 0 ? maxViews : null`. -/
def directMaxViews : JsNum → Option Int
  | .num n => if 0 < n then some n else none
  | _ => none

/-- `UPDATE`-or-`INSERT` of the plaintext password shadow at commit
(lines 539–553). -/
def upsertPassword (ps : List (Str × Str)) (fid p : Str) : List (Str × Str) :=
  if ps.any (fun e => e.1 == fid) then
    ps.map (fun e => if e.1 == fid then (fid, p) else e)
  else ps ++ [(fid, p)]

/-!
## `POST /api/s3/presign` (s3UploadRoutes.js lines 78–360)
-/

/-- The JSON body of the presign request.  `override` is the already-parsed
`body.override === "true"` test. -/
structure PresignBody where
  s3_config_id : Option Str
  filename : Option Str
  size : Option Int
  path : Option Str
  slug : Option Str
  override : Bool

/-- The presign handler.  Inputs mirror what the route reads: the
`s3_configs` rows, the parsed `max_upload_size` setting (MB, default 100),
the caller identity from the permission middleware, the API key's basic
path and accessible mounts, the request body, the short-id stream, and the
generated file/short ids.  Output: outcome, database, issued S3 deletes. -/
def presignHandler (ext : ExtFns) (cfgs : List S3Config) (maxUploadSizeMB : Option Int)
    (isAdmin : Bool) (userId : Str) (authType : AuthType) (basicPath : Option Str)
    (mounts : List MountRow) (body : PresignBody) (gen : Nat → Str)
    (fileId shortId : Str) (db : Db) : Res :=
  if !optStrTruthy body.s3_config_id then ⟨.err .badRequest, db, []⟩
  else if !optStrTruthy body.filename then ⟨.err .badRequest, db, []⟩
  else
    let cid := body.s3_config_id.getD []
    let filename := body.filename.getD []
    let maxUploadSizeBytes := (maxUploadSizeMB.getD 100) * 1024 * 1024
    if sizeTruthy body.size && body.size.getD 0 > maxUploadSizeBytes then
      ⟨.err .sizeLimitExceeded, db, []⟩
    else
      match cfgs.find? (fun c => c.id == cid) with
      | none => ⟨.err .notFound, db, []⟩
      | some cfg =>
        if sizeTruthy body.size
            && capacityRejects cfg.total_storage_bytes (usageOf db.files cid) (body.size.getD 0) then
          ⟨.err .capacityExceeded, db, []⟩
        else if isAdmin && !(cfg.admin_id == some userId) then
          ⟨.err .forbidden, db, []⟩
        else
          match generateUniqueFileSlug db.files body.slug body.override gen with
          | .error .conflict => ⟨.err .conflict, db, []⟩
          | .error _ => ⟨.err .internal, db, []⟩
          | .ok slug =>
            -- Override cleanup: no ownership check in this flow (lines 190–223).
            let step :=
              if body.override && optStrTruthy body.slug then
                match db.files.find? (fun f => f.slug == body.slug.getD []) with
                | some ex => deleteExistingFileRecord cfgs db ex
                | none => (db, ([] : List Str))
              else (db, [])
            let db1 := step.1
            let deleted1 := step.2
            let customPath := processCustomPath body.path
            let fileName := (ext.getFileNameAndExt filename).1
            let fileExt := (ext.getFileNameAndExt filename).2
            let safeFileName := (ext.getSafeFileName fileName).take 50
            match computeStoragePath ext cfg authType basicPath mounts customPath
                shortId safeFileName fileExt false with
            | .error e => ⟨.err e, db1, deleted1⟩
            | .ok storagePath =>
              let mimetype := ext.getMimeTypeFromFilename filename
              let record : FileRecord :=
                { id := fileId, slug := slug, filename := filename,
                  storage_path := storagePath, s3_url := ext.buildS3Url cfg storagePath,
                  s3_config_id := cid, mimetype := mimetype, size := 0, etag := none,
                  created_by := presignCreatedBy authType userId,
                  remark := none, password := none, expires_at := none,
                  max_views := none, use_proxy := none }
              ⟨.ok, ⟨db1.files ++ [record], db1.filePasswords⟩, deleted1⟩

/-!
## `POST /api/s3/commit` (s3UploadRoutes.js lines 363–594)
-/

/-- `if (password) passwordHash = await hashPassword(password)`: hash a
truthy password, else store `NULL`. -/
def hashedPasswordOf (ext : ExtFns) : Option Str → Option Str
  | some p => if strTruthy p then some (ext.hashPassword p) else none
  | none => none

/-- The JSON body of the commit request. -/
structure CommitBody where
  file_id : Option Str
  etag : Option Str
  size : Option Int
  password : Option Str
  expires_in : JsNum
  remark : Option Str
  max_views : JsNum

/-- The S3-config lookup of the commit handler (lines 410–417): an admin
caller must own the configuration; any other caller requires it public. -/
def commitFindConfig (cfgs : List S3Config) (isAdmin : Bool) (userId cfgId : Str) :
    Option S3Config :=
  if isAdmin then
    cfgs.find? (fun c => c.id == cfgId && c.admin_id == some userId)
  else
    cfgs.find? (fun c => c.id == cfgId && c.is_public == 1)

/-- The commit handler: look up the placeholder, re-check ownership,
re-check capacity authoritatively (rolling back object and record on
failure), then update the record in place and upsert the password shadow. -/
def commitHandler (ext : ExtFns) (cfgs : List S3Config) (isAdmin : Bool) (userId : Str)
    (authType : AuthType) (body : CommitBody) (db : Db) : Res :=
  if !optStrTruthy body.file_id then ⟨.err .badRequest, db, []⟩
  else
    match db.files.find? (fun f => f.id == body.file_id.getD []) with
    | none => ⟨.err .notFound, db, []⟩
    | some file =>
      if isAdmin && optStrTruthy file.created_by && !(file.created_by == some userId) then
        ⟨.err .forbidden, db, []⟩
      else if authType == .apikey && optStrTruthy file.created_by
          && !(file.created_by == some (str "apikey:" ++ userId)) then
        ⟨.err .forbidden, db, []⟩
      else
        match commitFindConfig cfgs isAdmin userId file.s3_config_id with
        | none => ⟨.err .badRequest, db, []⟩
        | some cfg =>
          if capacityRejects cfg.total_storage_bytes
              (usageExcluding db.files file.s3_config_id file.id)
              (commitIncomingSize body.size) then
            -- Rollback: delete the uploaded object and the placeholder row
            -- (lines 443–468); the password shadow is not touched here.
            ⟨.err .capacityExceeded,
             ⟨db.files.filter (fun f => !(f.id == file.id)), db.filePasswords⟩,
             [file.storage_path]⟩
          else
            let passwordHash := hashedPasswordOf ext body.password
            let expiresAt := fileExpiresAt ext.nowPlusHours body.expires_in
            let remark := orNull body.remark
            let maxViews := commitMaxViews body.max_views
            let fileSize := commitFileSize body.size
            let creator := commitCreator authType userId
            let files' := db.files.map (fun f =>
              if f.id == body.file_id.getD [] then
                { f with etag := orNull body.etag, created_by := some creator,
                         remark := remark, password := passwordHash,
                         expires_at := expiresAt, max_views := maxViews,
                         size := (match fileSize with | some v => v | none => f.size) }
              else f)
            let pwds' :=
              if optStrTruthy body.password then
                upsertPassword db.filePasswords (body.file_id.getD []) (body.password.getD [])
              else db.filePasswords
            ⟨.ok, ⟨files', pwds'⟩, []⟩

/-!
## `PUT /api/upload-direct/:filename` (s3UploadRoutes.js lines 597–1122)
-/

/-- The query parameters of the direct upload.  `override` and
`original_filename` are the parsed `=== "true"` tests; `use_proxy_not_zero`
is `c.req.query("use_proxy") !== "0"`. -/
structure DirectQuery where
  s3_config_id : Option Str
  slug : Option Str
  path : Option Str
  remark : Option Str
  password : Option Str
  expires_in : JsNum
  max_views : JsNum
  override : Bool
  original_filename : Bool
  use_proxy_not_zero : Bool

/-- Configuration-id selection of the direct flow (lines 622–675): an
explicit id is used as given; otherwise the caller's default configuration
(the admin's own default, or the public default for API keys), falling back
to any suitable configuration, failing with a 400 when none exists. -/
def directResolveConfigId (cfgs : List S3Config) (isAdmin : Bool) (userId : Str)
    (qid : Option Str) : Except ErrKind Str :=
  if !optStrTruthy qid then
    let defaultConfig :=
      if isAdmin then cfgs.find? (fun c => c.admin_id == some userId && c.is_default == 1)
      else cfgs.find? (fun c => c.is_public == 1 && c.is_default == 1)
    match defaultConfig with
    | some d => .ok d.id
    | none =>
      if isAdmin then
        match cfgs.find? (fun c => c.admin_id == some userId) with
        | some a => .ok a.id
        | none => .error .badRequest
      else
        match cfgs.find? (fun c => c.is_public == 1) with
        | some a => .ok a.id
        | none => .error .badRequest
  else .ok (qid.getD [])

/-- The override step of the direct flow (lines 772–814): with `override`
and a truthy custom slug, an existing record with that slug is deleted —
but only after the ownership check: a caller other than the record's
creator gets a 403 and nothing is deleted. -/
def directOverride (cfgs : List S3Config) (db : Db) (isAdmin : Bool) (userId : Str)
    (override : Bool) (customSlug : Option Str) : Except ErrKind (Db × List Str) :=
  if override && optStrTruthy customSlug then
    match db.files.find? (fun f => f.slug == customSlug.getD []) with
    | some ex =>
      if !(ex.created_by == some (directCreatedBy isAdmin userId)) then .error .forbidden
      else .ok (deleteExistingFileRecord cfgs db ex)
    | none => .ok (db, [])
  else .ok (db, [])

/-- The direct-upload handler.  `fileSize` is the request body's byte
length; `uploadedEtag` is the (quote-stripped) ETag the provider-specific
transfer returned — the transfer itself is an external call whose failure
would surface as an internal error and is not modelled. -/
def directHandler (ext : ExtFns) (cfgs : List S3Config) (maxUploadSizeMB : Option Int)
    (isAdmin : Bool) (userId : Str) (authType : AuthType) (basicPath : Option Str)
    (mounts : List MountRow) (filename : Str) (q : DirectQuery) (fileSize : Int)
    (uploadedEtag : Option Str) (gen : Nat → Str) (fileId shortId : Str) (db : Db) : Res :=
  if authType == .apikey && optStrTruthy q.s3_config_id
      && !(cfgs.any (fun c => c.id == q.s3_config_id.getD [] && c.is_public == 1)) then
    ⟨.err .forbidden, db, []⟩
  else
    match directResolveConfigId cfgs isAdmin userId q.s3_config_id with
    | .error e => ⟨.err e, db, []⟩
    | .ok cid =>
      match cfgs.find? (fun c => c.id == cid) with
      | none => ⟨.err .notFound, db, []⟩
      | some cfg =>
        if isAdmin && !(cfg.admin_id == some userId) then ⟨.err .forbidden, db, []⟩
        else if authType == .apikey && !(cfg.is_public == 1) then ⟨.err .forbidden, db, []⟩
        else
          let maxUploadSizeBytes := (maxUploadSizeMB.getD 100) * 1024 * 1024
          if fileSize > maxUploadSizeBytes then ⟨.err .sizeLimitExceeded, db, []⟩
          else if capacityRejects cfg.total_storage_bytes (usageOf db.files cid) fileSize then
            ⟨.err .capacityExceeded, db, []⟩
          else
            let customPath := processCustomPath q.path
            match generateUniqueFileSlug db.files q.slug q.override gen with
            | .error .conflict => ⟨.err .conflict, db, []⟩
            | .error _ => ⟨.err .internal, db, []⟩
            | .ok slug =>
              match directOverride cfgs db isAdmin userId q.override q.slug with
              | .error e => ⟨.err e, db, []⟩
              | .ok step =>
                let db1 := step.1
                let deleted1 := step.2
                let contentType := ext.getMimeTypeFromFilename filename
                let fileName := (ext.getFileNameAndExt filename).1
                let fileExt := (ext.getFileNameAndExt filename).2
                let safeFileName := (ext.getSafeFileName fileName).take 50
                match computeStoragePath ext cfg authType basicPath mounts customPath
                    shortId safeFileName fileExt q.original_filename with
                | .error e => ⟨.err e, db1, deleted1⟩
                | .ok storagePath =>
                  let expiresAt := fileExpiresAt ext.nowPlusHours q.expires_in
                  let useProxy : Int := if q.use_proxy_not_zero then 1 else 0
                  let passwordHash := hashedPasswordOf ext q.password
                  let record : FileRecord :=
                    { id := fileId, slug := slug, filename := filename,
                      storage_path := storagePath,
                      s3_url := ext.buildS3Url cfg storagePath,
                      s3_config_id := cid, mimetype := contentType,
                      size := fileSize, etag := uploadedEtag,
                      created_by := some (directCreatedBy isAdmin userId),
                      remark := some (q.remark.getD []),
                      password := passwordHash, expires_at := expiresAt,
                      max_views := directMaxViews q.max_views,
                      use_proxy := some useProxy }
                  let pwds' :=
                    if optStrTruthy q.password then
                      db1.filePasswords ++ [(fileId, q.password.getD [])]
                    else db1.filePasswords
                  ⟨.ok, ⟨db1.files ++ [record], pwds'⟩, deleted1⟩

/-!
## API-key expiry handling (src/unnamed/part_000, `createApiKey` lines
67–142 and `updateApiKey` lines 151–235)
-/

/-- The `expires_at` field of the key-data object: an explicit `null`, the
sentinel string `"never"`, a given date string, or an absent field. -/
inductive ExpiresAtInput where
  | nullv
  | never
  | given (s : Str)
  | absent
  deriving DecidableEq, Repr

/-- `new Date("9999-12-31T23:59:59Z").toISOString()`: the fixed far-future
timestamp standing for "never expires". -/
def API_KEY_NEVER_EXPIRES : Str := str "9999-12-31T23:59:59.000Z"

/-- The expiry `createApiKey` stores (lines 88–105): `null`/`"never"` map
to the far-future timestamp; a given date is parsed (`parse` returns
`none` for an invalid date, which the function rejects); an absent field
defaults to one day from now. -/
def apiKeyCreateExpiresAt (parse : Str → Option Str) (oneDayLater : Str) :
    ExpiresAtInput → Option Str
  | .nullv => some API_KEY_NEVER_EXPIRES
  | .never => some API_KEY_NEVER_EXPIRES
  | .given s => parse s
  | .absent => some oneDayLater

/-- The `expires_at` update `updateApiKey` performs (lines 173–185,
217–220): `null`/`"never"` set the far-future timestamp; a valid given
date is set; an invalid date is an error; an absent field updates nothing
(`.ok none`). -/
def apiKeyUpdateExpiresAt (parse : Str → Option Str) :
    ExpiresAtInput → Except Unit (Option Str)
  | .nullv => .ok (some API_KEY_NEVER_EXPIRES)
  | .never => .ok (some API_KEY_NEVER_EXPIRES)
  | .given s =>
    match parse s with
    | some t => .ok (some t)
    | none => .error ()
  | .absent => .ok none

/-- The row `createApiKey` inserts, restricted to the fields the claims
touch.  `randKey` models `generateRandomString(12)` and `newId` the
generated UUID. -/
structure ApiKeyRow where
  id : Str
  name : Str
  key : Str
  basic_path : Str
  expires_at : Str
  deriving DecidableEq, Repr

/-- `createApiKey` (lines 67–142): validate the name and the optional
custom key, compute the expiry, and insert.  Name-uniqueness checking
happens in the callers and is not part of this function. -/
def createApiKey (parse : Str → Option Str) (oneDayLater : Str) (newId randKey : Str)
    (name : Str) (customKey : Option Str) (expiresAt : ExpiresAtInput)
    (basicPath : Option Str) : Except Unit ApiKeyRow :=
  if !strTruthy name || !strTruthy (trimStr name) then .error ()
  else if optStrTruthy customKey && !slugFormatOk (customKey.getD []) then .error ()
  else
    let key := if optStrTruthy customKey then customKey.getD [] else randKey
    match apiKeyCreateExpiresAt parse oneDayLater expiresAt with
    | none => .error ()
    | some exp =>
      .ok { id := newId, name := trimStr name, key := key,
            basic_path := (if optStrTruthy basicPath then basicPath.getD [] else str "/"),
            expires_at := exp }

/-!
## Theorems
-/

theorem usage_foldr_eq_sum (l : List FileRecord) :
    l.foldr (fun f acc => f.size + acc) 0 = (l.map FileRecord.size).sum := by
  induction l with
  | nil => rfl
  | cons f t ih => simp [List.sum_cons, ih]

/-- Claim C1: quota admission.  For every admission check against a
StorageConfig, a write is admitted with no configured ceiling
(`total_storage_bytes` null) always, and otherwise exactly when current
usage plus the incoming size does not exceed the ceiling, where usage is
the sum of `size` over the FileRecords referencing the config — for the
commit-time check excluding the record being committed. -/
theorem quota_admission_iff (files : List FileRecord) (cfgId fid : Str)
    (ceiling : Option Int) (incoming : Int) :
    (capacityRejects ceiling (usageOf files cfgId) incoming = false ↔
      ceiling = none ∨ ∃ c, ceiling = some c ∧
        ((files.filter (fun f => f.s3_config_id == cfgId)).map FileRecord.size).sum
          + incoming ≤ c)
    ∧
    (capacityRejects ceiling (usageExcluding files cfgId fid) incoming = false ↔
      ceiling = none ∨ ∃ c, ceiling = some c ∧
        ((files.filter (fun f => f.s3_config_id == cfgId && !(f.id == fid))).map
          FileRecord.size).sum + incoming ≤ c) := by
  constructor
  · cases ceiling with
    | none => simp [capacityRejects]
    | some c =>
      simp only [capacityRejects, usageOf, usage_foldr_eq_sum, decide_eq_false_iff_not,
        not_lt, Option.some.injEq, reduceCtorEq, false_or]
      constructor
      · intro h; exact ⟨c, rfl, h⟩
      · rintro ⟨c', hc', h⟩; cases hc'; exact h
  · cases ceiling with
    | none => simp [capacityRejects]
    | some c =>
      simp only [capacityRejects, usageExcluding, usage_foldr_eq_sum, decide_eq_false_iff_not,
        not_lt, Option.some.injEq, reduceCtorEq, false_or]
      constructor
      · intro h; exact ⟨c, rfl, h⟩
      · rintro ⟨c', hc', h⟩; cases hc'; exact h

theorem generateUniqueFileSlug_custom_ok {files : List FileRecord} {s : Str}
    {override : Bool} {gen : Nat → Str} {v : Str} (hst : strTruthy s = true)
    (h : generateUniqueFileSlug files (some s) override gen = .ok v) : v = s := by
  simp only [generateUniqueFileSlug, hst, if_true] at h
  split at h
  · exact absurd h (by simp)
  · split at h
    · exact absurd h (by simp)
    · cases h; rfl

/-- Claim C6: slug allocation with a custom slug.  A given (truthy) custom
slug that fails `^[a-zA-Z0-9_-]+$` is a validation error; a well-formed
slug already held by a FileRecord is a conflict when `override` is false
(never a silent overwrite); with `override` true, or when no record holds
the slug, the custom slug is returned unchanged. -/
theorem slug_allocation_custom (files : List FileRecord) (s : Str) (override : Bool)
    (gen : Nat → Str) (hs : strTruthy s = true) :
    (slugFormatOk s = false →
      generateUniqueFileSlug files (some s) override gen = .error .invalidFormat)
    ∧ (slugFormatOk s = true → (∃ f ∈ files, f.slug = s) → override = false →
      generateUniqueFileSlug files (some s) override gen = .error .conflict)
    ∧ (slugFormatOk s = true →
      (((∃ f ∈ files, f.slug = s) ∧ override = true) ∨ ¬ (∃ f ∈ files, f.slug = s)) →
      generateUniqueFileSlug files (some s) override gen = .ok s) := by
  have hex : slugExists files s = true ↔ ∃ f ∈ files, f.slug = s := by
    simp [slugExists, List.any_eq_true, beq_iff_eq]
  refine ⟨?_, ?_, ?_⟩
  · intro hfmt
    simp [generateUniqueFileSlug, hs, hfmt]
  · intro hfmt hmem hov
    simp [generateUniqueFileSlug, hs, hfmt, hov, hex.mpr hmem]
  · intro hfmt hcase
    rcases hcase with ⟨hmem, hov⟩ | hnm
    · simp [generateUniqueFileSlug, hs, hfmt, hov, hex.mpr hmem]
    · have hne : slugExists files s = false := by
        cases hse : slugExists files s
        · rfl
        · exact absurd (hex.mp hse) hnm
      simp [generateUniqueFileSlug, hs, hfmt, hne]

/-- Claim C8 (amended): the `null`/`"never"` expiry sentinel maps to the
fixed far-future timestamp `9999-12-31T23:59:59Z` in the API-key create
and update operations, while the file-record operations (commit and direct
upload) store a `NULL` expiry when `expires_in` is absent/null or the
non-numeric string `"never"` (`parseInt` yields `NaN`). -/
theorem expiry_sentinel_mapping (parse : Str → Option Str) (oneDayLater : Str)
    (nowPlusHours : Int → Str) :
    apiKeyCreateExpiresAt parse oneDayLater .nullv = some API_KEY_NEVER_EXPIRES
    ∧ apiKeyCreateExpiresAt parse oneDayLater .never = some API_KEY_NEVER_EXPIRES
    ∧ apiKeyUpdateExpiresAt parse .nullv = .ok (some API_KEY_NEVER_EXPIRES)
    ∧ apiKeyUpdateExpiresAt parse .never = .ok (some API_KEY_NEVER_EXPIRES)
    ∧ fileExpiresAt nowPlusHours .absent = none
    ∧ fileExpiresAt nowPlusHours .nonNumeric = none :=
  ⟨rfl, rfl, rfl, rfl, rfl, rfl⟩

/-- Claim C9 (amended): the creator identity written by presign, commit
and direct upload is the bare `<id>` for an administrator (not
`admin:<id>`) and `apikey:<id>` for an API key, in all three operations. -/
theorem creator_identity_format (uid : Str) :
    presignCreatedBy .admin uid = some uid
    ∧ presignCreatedBy .apikey uid = some (str "apikey:" ++ uid)
    ∧ commitCreator .admin uid = uid
    ∧ commitCreator .apikey uid = str "apikey:" ++ uid
    ∧ directCreatedBy true uid = uid
    ∧ directCreatedBy false uid = str "apikey:" ++ uid :=
  ⟨rfl, rfl, rfl, rfl, rfl, rfl⟩

theorem dropWhile_head_not_sat (p : Char → Bool) (l : List Char) (a : Char) (t : List Char)
    (h : l.dropWhile p = a :: t) : p a = false := by
  induction l with
  | nil => simp at h
  | cons x xs ih =>
    rw [List.dropWhile_cons] at h
    split at h
    · exact ih h
    · next hx =>
      injection h with h1 _
      subst h1
      simpa using hx

theorem dropTrailingSlashes_ne_slash (s : Str) : dropTrailingSlashes s ≠ str "/" := by
  intro h
  have hr : (str "/").reverse = ['/'] := rfl
  have h2 : s.reverse.dropWhile (· == '/') = ['/'] := by
    have h3 := congrArg List.reverse h
    rw [hr] at h3
    simpa [dropTrailingSlashes] using h3
  have := dropWhile_head_not_sat (· == '/') s.reverse '/' [] h2
  simp at this

theorem normMountPath_eq (p : Str) :
    (if (dropTrailingSlashes p).isEmpty then str "/" else dropTrailingSlashes p) =
      specNormMountPath p := by
  unfold specNormMountPath
  by_cases h : dropTrailingSlashes p = []
  · simp [h]
  · simp [h, List.isEmpty_iff]

theorem mountRowAccessible_eq_nonroot (b : Str) (m : MountRow)
    (hpub : (m.storage_type == str "S3" && !(m.is_public == some 1)) = false)
    (hb : (b == str "/") = false) :
    mountRowAccessible b m =
      ((specNormMountPath m.mount_path == dropTrailingSlashes b)
        || strStartsWith (specNormMountPath m.mount_path) (dropTrailingSlashes b ++ str "/")
        || strStartsWith (dropTrailingSlashes b) (specNormMountPath m.mount_path ++ str "/")) := by
  have hnb : (dropTrailingSlashes b == str "/") = false := by
    rw [beq_eq_false_iff_ne]
    exact dropTrailingSlashes_ne_slash b
  simp only [mountRowAccessible, hpub, hb, normMountPath_eq, hnb, Bool.false_eq_true,
    if_false]
  cases h1 : (specNormMountPath m.mount_path == dropTrailingSlashes b) <;>
    cases h2 : strStartsWith (specNormMountPath m.mount_path) (dropTrailingSlashes b ++ str "/") <;>
      cases h3 : strStartsWith (dropTrailingSlashes b) (specNormMountPath m.mount_path ++ str "/") <;>
        simp [h1, h2, h3]

theorem mountRowAccessible_iff_spec (b : Str) (m : MountRow) :
    mountRowAccessible b m = true ↔ specMountAccessible b m := by
  by_cases hpub : (m.storage_type == str "S3" && !(m.is_public == some 1)) = true
  · have hand : (m.storage_type == str "S3") = true ∧ (!(m.is_public == some 1)) = true := by
      simpa using hpub
    have hspec : ¬ specMountPublicOk m := by
      intro hok
      exact hok ⟨beq_iff_eq.mp hand.1, by simpa using hand.2⟩
    constructor
    · intro h
      exfalso
      simp [mountRowAccessible, hpub] at h
    · rintro ⟨hok, -⟩
      exact absurd hok hspec
  · rw [Bool.not_eq_true] at hpub
    have hspec : specMountPublicOk m := by
      rintro ⟨h1, h2⟩
      have hA : (m.storage_type == str "S3") = true := beq_iff_eq.mpr h1
      have hB : (m.is_public == some 1) = false := beq_eq_false_iff_ne.mpr h2
      rw [hA, hB] at hpub
      simp at hpub
    by_cases hb : (b == str "/") = true
    · constructor
      · intro _
        exact ⟨hspec, Or.inl (beq_iff_eq.mp hb)⟩
      · intro _
        simp [mountRowAccessible, hpub, hb]
    · rw [Bool.not_eq_true] at hb
      have hbne : b ≠ str "/" := by
        intro h
        rw [beq_iff_eq.mpr h] at hb
        simp at hb
      rw [mountRowAccessible_eq_nonroot b m hpub hb]
      unfold specMountAccessible specMountEqualsBasic specMountDescendantOfBasic
        specMountAncestorOfBasic
      constructor
      · intro h
        refine ⟨hspec, ?_⟩
        rcases (by simpa using h :
            (specNormMountPath m.mount_path = dropTrailingSlashes b
              ∨ strStartsWith (specNormMountPath m.mount_path)
                  (dropTrailingSlashes b ++ str "/") = true)
            ∨ strStartsWith (dropTrailingSlashes b)
                (specNormMountPath m.mount_path ++ str "/") = true) with (h1 | h2) | h3
        · exact Or.inr (Or.inl h1)
        · exact Or.inr (Or.inr (Or.inl h2))
        · exact Or.inr (Or.inr (Or.inr h3))
      · rintro ⟨-, hroot | heq | hdesc | hanc⟩
        · exact absurd hroot hbne
        · simp [beq_iff_eq.mpr heq]
        · simp [hdesc]
        · simp [hanc]

/-- Claim C3: mount accessibility.  A mount is in the set computed by
`getAccessibleMountsByBasicPath` for basic path `B` iff its storage is not
an S3-type mount on a non-public StorageConfig, and `B` is the root path
`"/"`, or the mount path equals `B` or is a descendant of `B`, or the
mount path is an ancestor of `B` — trailing slashes stripped from both
paths before comparison (a mount path consisting only of slashes
normalizes to the root singleton `"/"`, per §4.1 of the spec). -/
theorem mount_accessibility (basicPath : Str) (rows : List MountRow) (m : MountRow) :
    m ∈ getAccessibleMountsByBasicPath basicPath rows ↔
      m ∈ rows ∧ specMountAccessible basicPath m := by
  rw [getAccessibleMountsByBasicPath, List.mem_filter, mountRowAccessible_iff_spec]

theorem mem_insertMountDesc {m a : MountRow} {l : List MountRow} :
    a ∈ insertMountDesc m l ↔ a = m ∨ a ∈ l := by
  induction l with
  | nil => simp [insertMountDesc]
  | cons x xs ih =>
    unfold insertMountDesc
    split
    · simp [List.mem_cons]
    · simp only [List.mem_cons, ih]
      tauto

theorem pairwise_insertMountDesc {m : MountRow} {l : List MountRow}
    (h : l.Pairwise (fun a b => b.mount_path.length ≤ a.mount_path.length)) :
    (insertMountDesc m l).Pairwise (fun a b => b.mount_path.length ≤ a.mount_path.length) := by
  induction l with
  | nil => simp [insertMountDesc]
  | cons x xs ih =>
    rw [List.pairwise_cons] at h
    obtain ⟨hx, hxs⟩ := h
    unfold insertMountDesc
    split
    · next hle =>
      rw [List.pairwise_cons]
      refine ⟨?_, List.pairwise_cons.mpr ⟨hx, hxs⟩⟩
      intro y hy
      rcases List.mem_cons.mp hy with rfl | hy'
      · exact hle
      · exact le_trans (hx y hy') hle
    · next hgt =>
      rw [List.pairwise_cons]
      refine ⟨?_, ih hxs⟩
      intro y hy
      rcases mem_insertMountDesc.mp hy with rfl | hy'
      · omega
      · exact hx y hy'

theorem sortMountsDesc_pairwise (l : List MountRow) :
    (sortMountsDesc l).Pairwise (fun a b => b.mount_path.length ≤ a.mount_path.length) := by
  induction l with
  | nil => simp [sortMountsDesc]
  | cons m ms ih => exact pairwise_insertMountDesc ih

theorem mem_sortMountsDesc {a : MountRow} {l : List MountRow} :
    a ∈ sortMountsDesc l ↔ a ∈ l := by
  induction l with
  | nil => simp [sortMountsDesc]
  | cons m ms ih => simp [sortMountsDesc, mem_insertMountDesc, ih]

theorem findMountSubPath_mem {cfgId basicPath : Str} {l : List MountRow} {m : MountRow}
    {sp : Str} (h : findMountSubPath cfgId basicPath l = some (m, sp)) : m ∈ l := by
  induction l with
  | nil => simp [findMountSubPath] at h
  | cons x xs ih =>
    unfold findMountSubPath at h
    split at h
    · exact List.mem_cons_of_mem _ (ih h)
    · split at h
      · simp only [Option.some.injEq, Prod.mk.injEq] at h
        obtain ⟨hxm, -⟩ := h
        rw [← hxm]
        exact List.mem_cons_self x xs
      · exact List.mem_cons_of_mem _ (ih h)

theorem findMountSubPath_props {cfgId basicPath : Str} {l : List MountRow} {m : MountRow}
    {sp : Str} (h : findMountSubPath cfgId basicPath l = some (m, sp)) :
    (m.storage_config_id == cfgId) = true
    ∧ mountMatches basicPath (fixLeadingSlash m.mount_path) = true := by
  induction l with
  | nil => simp [findMountSubPath] at h
  | cons x xs ih =>
    unfold findMountSubPath at h
    split at h
    · exact ih h
    · next hcfg =>
      split at h
      · next hmx =>
        simp only [Option.some.injEq, Prod.mk.injEq] at h
        obtain ⟨hxm, -⟩ := h
        subst hxm
        exact ⟨by simpa using hcfg, hmx⟩
      · exact ih h

theorem findMountSubPath_maximal {cfgId basicPath : Str} {l : List MountRow}
    (hs : l.Pairwise (fun a b => b.mount_path.length ≤ a.mount_path.length))
    {m : MountRow} {sp : Str} (h : findMountSubPath cfgId basicPath l = some (m, sp)) :
    ∀ m' ∈ l, (m'.storage_config_id == cfgId) = true →
      mountMatches basicPath (fixLeadingSlash m'.mount_path) = true →
      m'.mount_path.length ≤ m.mount_path.length := by
  induction l with
  | nil => simp [findMountSubPath] at h
  | cons x xs ih =>
    rw [List.pairwise_cons] at hs
    obtain ⟨hx, hxs⟩ := hs
    intro m' hm' hcfg' hmatch'
    unfold findMountSubPath at h
    split at h
    · next hskip =>
      rcases List.mem_cons.mp hm' with rfl | hm'
      · exact absurd hcfg' (by simpa using hskip)
      · exact ih hxs h m' hm' hcfg' hmatch'
    · split at h
      · next hmx =>
        simp only [Option.some.injEq, Prod.mk.injEq] at h
        obtain ⟨hxm, -⟩ := h
        subst hxm
        rcases List.mem_cons.mp hm' with rfl | hm'
        · exact le_refl _
        · exact hx m' hm'
      · next hnmx =>
        rcases List.mem_cons.mp hm' with rfl | hm'
        · exact absurd hmatch' (by simpa using hnmx)
        · exact ih hxs h m' hm' hcfg' hmatch'

theorem findMountSubPath_subPathForm {cfgId basicPath : Str} {l : List MountRow}
    {m : MountRow} {sp : Str} (h : findMountSubPath cfgId basicPath l = some (m, sp)) :
    strStartsWith sp (str "/") = true
    ∧ (fixLeadingSlash m.mount_path ++ sp = basicPath
       ∨ (basicPath = fixLeadingSlash m.mount_path ∧ sp = str "/")) := by
  induction l with
  | nil => simp [findMountSubPath] at h
  | cons x xs ih =>
    unfold findMountSubPath at h
    split at h
    · exact ih h
    · split at h
      · next hmx =>
        simp only [Option.some.injEq, Prod.mk.injEq] at h
        obtain ⟨hxm, hsp⟩ := h
        subst hxm
        rcases (by simpa [mountMatches, beq_iff_eq] using hmx :
            (basicPath = fixLeadingSlash x.mount_path
              ∨ basicPath = fixLeadingSlash x.mount_path ++ str "/")
            ∨ strStartsWith basicPath (fixLeadingSlash x.mount_path ++ str "/") = true)
          with (heq | heq2) | hpre
        · subst heq
          rw [List.drop_length] at hsp
          have hfalse : strStartsWith ([] : Str) (str "/") = false := rfl
          rw [hfalse] at hsp
          simp only [Bool.false_eq_true, if_false, List.append_nil] at hsp
          subst hsp
          exact ⟨rfl, Or.inr ⟨rfl, rfl⟩⟩
        · subst heq2
          rw [List.drop_left] at hsp
          have htrue : strStartsWith (str "/") (str "/") = true := rfl
          rw [htrue] at hsp
          simp only [if_true] at hsp
          subst hsp
          exact ⟨rfl, Or.inl rfl⟩
        · obtain ⟨t, ht⟩ := List.isPrefixOf_iff_prefix.mp hpre
          have hdrop : basicPath.drop (fixLeadingSlash x.mount_path).length = str "/" ++ t := by
            rw [← ht, List.append_assoc, List.drop_left]
          rw [hdrop] at hsp
          have htrue : strStartsWith (str "/" ++ t) (str "/") = true := by
            rw [strStartsWith]
            exact List.isPrefixOf_iff_prefix.mpr ⟨t, rfl⟩
          rw [htrue] at hsp
          simp only [if_true] at hsp
          subst hsp
          refine ⟨htrue, Or.inl ?_⟩
          rw [← ht, List.append_assoc]
      · exact ih h

/-- Claim C4: longest-prefix path resolution.  If the resolution used by
presign and direct upload selects a mount `m` with sub-path `sp` for a
basic path, then `m` is a mount of the target config that matches the
basic path, every other matching mount of that config has a mount path no
longer than `m`'s (descending sort by length, first match), and the
sub-path is the basic path with the matched mount path stripped and a
leading slash guaranteed. -/
theorem longest_prefix_resolution (mounts : List MountRow) (cfgId basicPath : Str)
    (m : MountRow) (sp : Str)
    (h : resolveSubPath mounts cfgId basicPath = some (m, sp)) :
    m ∈ mounts ∧ m.storage_config_id = cfgId
    ∧ mountMatches basicPath (fixLeadingSlash m.mount_path) = true
    ∧ (∀ m' ∈ mounts, m'.storage_config_id = cfgId →
        mountMatches basicPath (fixLeadingSlash m'.mount_path) = true →
        m'.mount_path.length ≤ m.mount_path.length)
    ∧ strStartsWith sp (str "/") = true
    ∧ (fixLeadingSlash m.mount_path ++ sp = basicPath
       ∨ (basicPath = fixLeadingSlash m.mount_path ∧ sp = str "/")) := by
  unfold resolveSubPath at h
  have hmem := mem_sortMountsDesc.mp (findMountSubPath_mem h)
  have hprops := findMountSubPath_props h
  have hmax := findMountSubPath_maximal (sortMountsDesc_pairwise mounts) h
  have hform := findMountSubPath_subPathForm h
  refine ⟨hmem, beq_iff_eq.mp hprops.1, hprops.2, ?_, hform.1, hform.2⟩
  intro m' hm' hcfg' hmatch'
  exact hmax m' (mem_sortMountsDesc.mpr hm') (beq_iff_eq.mpr hcfg') hmatch'

/-- The two mounts of the spec's longest-prefix example, both bound to the
same store `c1`. -/
def mountA : MountRow :=
  { name := str "A", storage_type := str "S3", storage_config_id := str "c1",
    mount_path := str "/a", is_public := some 1 }

/-- The deeper mount `/a/b` of the longest-prefix example. -/
def mountAB : MountRow :=
  { name := str "B", storage_type := str "S3", storage_config_id := str "c1",
    mount_path := str "/a/b", is_public := some 1 }

/-- Witness for claim C4: with mounts `/a` and `/a/b` on the same store and
basic path `/a/b/c`, the resolution selects `/a/b` (the longest match) and
computes sub-path `/c` relative to it, not `/b/c` relative to `/a`. -/
theorem longest_prefix_resolution_witness :
    resolveSubPath [mountA, mountAB] (str "c1") (str "/a/b/c") = some (mountAB, str "/c")
    ∧ mountAB.mount_path = str "/a/b"
    ∧ fixLeadingSlash mountAB.mount_path ++ str "/c" = str "/a/b/c"
    ∧ (∀ m' ∈ [mountA, mountAB], m'.storage_config_id = str "c1" →
        mountMatches (str "/a/b/c") (fixLeadingSlash m'.mount_path) = true →
        m'.mount_path.length ≤ mountAB.mount_path.length) := by
  have h : resolveSubPath [mountA, mountAB] (str "c1") (str "/a/b/c")
      = some (mountAB, str "/c") := by decide
  have hmain := longest_prefix_resolution [mountA, mountAB] (str "c1") (str "/a/b/c")
    mountAB (str "/c") h
  refine ⟨h, by decide, ?_, hmain.2.2.2.1⟩
  rcases hmain.2.2.2.2.2 with h1 | h2
  · exact h1
  · exact absurd h2.1 (by decide)

/-- Claim C2: commit-time quota rollback.  When the authoritative capacity
check fails (usage excluding the committed record plus the confirmed size
exceeds the ceiling), the commit handler issues a delete of the uploaded
object, deletes the placeholder FileRecord, reports a capacity error, and
updates nothing (the password shadow and every other record are left as
they were). -/
theorem commit_quota_rollback (ext : ExtFns) (cfgs : List S3Config) (isAdmin : Bool)
    (userId : Str) (authType : AuthType) (body : CommitBody) (db : Db)
    (fid : Str) (file : FileRecord) (cfg : S3Config)
    (hfid : body.file_id = some fid) (hft : strTruthy fid = true)
    (hfind : db.files.find? (fun f => f.id == fid) = some file)
    (ho1 : (isAdmin && optStrTruthy file.created_by
        && !(file.created_by == some userId)) = false)
    (ho2 : (authType == AuthType.apikey && optStrTruthy file.created_by
        && !(file.created_by == some (str "apikey:" ++ userId))) = false)
    (hcfg : commitFindConfig cfgs isAdmin userId file.s3_config_id = some cfg)
    (hcap : capacityRejects cfg.total_storage_bytes
        (usageExcluding db.files file.s3_config_id file.id)
        (commitIncomingSize body.size) = true) :
    (commitHandler ext cfgs isAdmin userId authType body db).outcome = .err .capacityExceeded
    ∧ (commitHandler ext cfgs isAdmin userId authType body db).db.files
        = db.files.filter (fun f => !(f.id == file.id))
    ∧ file ∉ (commitHandler ext cfgs isAdmin userId authType body db).db.files
    ∧ (commitHandler ext cfgs isAdmin userId authType body db).db.filePasswords
        = db.filePasswords
    ∧ (commitHandler ext cfgs isAdmin userId authType body db).s3Deleted
        = [file.storage_path] := by
  have hft' : optStrTruthy (some fid) = true := hft
  have hrun : commitHandler ext cfgs isAdmin userId authType body db =
      ⟨.err .capacityExceeded,
       ⟨db.files.filter (fun f => !(f.id == file.id)), db.filePasswords⟩,
       [file.storage_path]⟩ := by
    simp only [commitHandler, hfid, hft', Bool.not_true, Bool.false_eq_true, if_false,
      Option.getD_some, hfind, ho1, ho2, hcfg, hcap, if_true]
  rw [hrun]
  refine ⟨rfl, rfl, ?_, rfl, rfl⟩
  intro hmem
  have := (List.mem_filter.mp hmem).2
  simp at this

/-- Claim C7: commit without ETag.  A commit whose body omits `etag` but
supplies a (truthy) size and metadata is not rejected: it persists size,
creator, remark, password, expiry and max-views exactly as the same commit
with an ETag would, and only leaves the record's `etag` column `NULL`. -/
theorem commit_without_etag (ext : ExtFns) (cfgs : List S3Config) (isAdmin : Bool)
    (userId : Str) (authType : AuthType) (body : CommitBody) (db : Db)
    (fid : Str) (file : FileRecord) (cfg : S3Config) (s : Int) (e : Str)
    (hfid : body.file_id = some fid) (hft : strTruthy fid = true)
    (hfind : db.files.find? (fun f => f.id == fid) = some file)
    (ho1 : (isAdmin && optStrTruthy file.created_by
        && !(file.created_by == some userId)) = false)
    (ho2 : (authType == AuthType.apikey && optStrTruthy file.created_by
        && !(file.created_by == some (str "apikey:" ++ userId))) = false)
    (hcfg : commitFindConfig cfgs isAdmin userId file.s3_config_id = some cfg)
    (hcap : capacityRejects cfg.total_storage_bytes
        (usageExcluding db.files file.s3_config_id file.id)
        (commitIncomingSize body.size) = false)
    (hetag : body.etag = none) (hsz : body.size = some s) (hs0 : s ≠ 0)
    (he : strTruthy e = true) :
    (commitHandler ext cfgs isAdmin userId authType body db).outcome = .ok
    ∧ (commitHandler ext cfgs isAdmin userId authType body db).db.files
        = db.files.map (fun f =>
            if f.id == fid then
              { f with etag := none,
                       created_by := some (commitCreator authType userId),
                       remark := orNull body.remark,
                       password := hashedPasswordOf ext body.password,
                       expires_at := fileExpiresAt ext.nowPlusHours body.expires_in,
                       max_views := commitMaxViews body.max_views,
                       size := if s < 0 then 0 else s }
            else f)
    ∧ (commitHandler ext cfgs isAdmin userId authType { body with etag := some e } db).outcome
        = .ok
    ∧ (commitHandler ext cfgs isAdmin userId authType { body with etag := some e } db).db.files
        = db.files.map (fun f =>
            if f.id == fid then
              { f with etag := some e,
                       created_by := some (commitCreator authType userId),
                       remark := orNull body.remark,
                       password := hashedPasswordOf ext body.password,
                       expires_at := fileExpiresAt ext.nowPlusHours body.expires_in,
                       max_views := commitMaxViews body.max_views,
                       size := if s < 0 then 0 else s }
            else f)
    ∧ (commitHandler ext cfgs isAdmin userId authType body db).db.filePasswords
        = (commitHandler ext cfgs isAdmin userId authType
            { body with etag := some e } db).db.filePasswords
    ∧ (commitHandler ext cfgs isAdmin userId authType body db).s3Deleted = []
    ∧ (commitHandler ext cfgs isAdmin userId authType
        { body with etag := some e } db).s3Deleted = [] := by
  have hft' : optStrTruthy (some fid) = true := hft
  have hsz' : commitFileSize body.size = some (if s < 0 then 0 else s) := by
    rw [hsz]
    simp [commitFileSize, hs0]
  have hetag0 : orNull body.etag = none := by rw [hetag]; rfl
  have hetagE : orNull (some e) = some e := by simp [orNull, he]
  have hrun : commitHandler ext cfgs isAdmin userId authType body db =
      ⟨.ok,
       ⟨db.files.map (fun f =>
          if f.id == fid then
            { f with etag := none,
                     created_by := some (commitCreator authType userId),
                     remark := orNull body.remark,
                     password := hashedPasswordOf ext body.password,
                     expires_at := fileExpiresAt ext.nowPlusHours body.expires_in,
                     max_views := commitMaxViews body.max_views,
                     size := if s < 0 then 0 else s }
          else f),
        if optStrTruthy body.password then
          upsertPassword db.filePasswords fid (body.password.getD [])
        else db.filePasswords⟩,
       []⟩ := by
    simp only [commitHandler, hfid, hft', Bool.not_true, Bool.false_eq_true, if_false,
      Option.getD_some, hfind, ho1, ho2, hcfg, hcap, if_true, hsz', hetag0]
  have hrunE : commitHandler ext cfgs isAdmin userId authType { body with etag := some e } db =
      ⟨.ok,
       ⟨db.files.map (fun f =>
          if f.id == fid then
            { f with etag := some e,
                     created_by := some (commitCreator authType userId),
                     remark := orNull body.remark,
                     password := hashedPasswordOf ext body.password,
                     expires_at := fileExpiresAt ext.nowPlusHours body.expires_in,
                     max_views := commitMaxViews body.max_views,
                     size := if s < 0 then 0 else s }
          else f),
        if optStrTruthy body.password then
          upsertPassword db.filePasswords fid (body.password.getD [])
        else db.filePasswords⟩,
       []⟩ := by
    simp only [commitHandler, hfid, hft', Bool.not_true, Bool.false_eq_true, if_false,
      Option.getD_some, hfind, ho1, ho2, hcfg, hcap, if_true, hsz', hetagE]
  rw [hrun, hrunE]
  exact ⟨rfl, rfl, rfl, rfl, rfl, rfl, rfl⟩

/-- Concrete external collaborators for evaluating the handlers on
witness inputs. -/
def extTest : ExtFns :=
  { getMimeTypeFromFilename := fun _ => str "application/octet-stream",
    getFileNameAndExt := fun s => (s, []),
    getSafeFileName := fun s => s,
    normalizeS3SubPath := fun sp _ => sp,
    hashPassword := fun p => str "#" ++ p,
    buildS3Url := fun _ p => str "url/" ++ p,
    nowPlusHours := fun _ => str "2026-01-02T00:00:00.000Z" }

/-- A fixed short-id stream for witness runs. -/
def gen0 : Nat → Str := fun _ => str "rnd001"

/-- A public configuration with a 100-byte capacity ceiling. -/
def cfgC2 : S3Config :=
  { id := str "c1", admin_id := some (str "root"), is_public := 1, is_default := 0,
    total_storage_bytes := some 100, default_folder := none,
    provider_type := str "Other", bucket_name := str "b" }

/-- A placeholder record awaiting commit, created by API key `u1`. -/
def fileC2 : FileRecord :=
  { id := str "f1", slug := str "s1", filename := str "a.bin",
    storage_path := str "k/f1.bin", s3_url := str "url/k/f1.bin",
    s3_config_id := str "c1", mimetype := str "application/octet-stream",
    size := 0, etag := none, created_by := some (str "apikey:u1"),
    remark := none, password := none, expires_at := none, max_views := none,
    use_proxy := none }

/-- A second record on the same store holding 90 of the 100 bytes. -/
def fileC2b : FileRecord :=
  { id := str "f2", slug := str "s2", filename := str "b.bin",
    storage_path := str "k/f2.bin", s3_url := str "url/k/f2.bin",
    s3_config_id := str "c1", mimetype := str "application/octet-stream",
    size := 90, etag := some (str "E2"), created_by := some (str "apikey:u1"),
    remark := none, password := none, expires_at := none, max_views := none,
    use_proxy := none }

/-- The database for the commit witnesses. -/
def dbC2 : Db := ⟨[fileC2, fileC2b], [(str "f2", str "pw")]⟩

/-- A commit body confirming 20 bytes: 90 + 20 exceeds the 100 ceiling. -/
def bodyC2 : CommitBody :=
  { file_id := some (str "f1"), etag := some (str "E"), size := some 20,
    password := none, expires_in := .absent, remark := none, max_views := .absent }

/-- Witness for claim C2: a concrete over-ceiling commit is rejected with a
capacity error, the placeholder row is removed, its object delete is
issued, and the password shadow table is untouched. -/
theorem commit_quota_rollback_witness :
    (commitHandler extTest [cfgC2] false (str "u1") .apikey bodyC2 dbC2).outcome
        = .err .capacityExceeded
    ∧ (commitHandler extTest [cfgC2] false (str "u1") .apikey bodyC2 dbC2).db.files
        = dbC2.files.filter (fun f => !(f.id == fileC2.id))
    ∧ fileC2 ∉ (commitHandler extTest [cfgC2] false (str "u1") .apikey bodyC2 dbC2).db.files
    ∧ (commitHandler extTest [cfgC2] false (str "u1") .apikey bodyC2 dbC2).db.filePasswords
        = dbC2.filePasswords
    ∧ (commitHandler extTest [cfgC2] false (str "u1") .apikey bodyC2 dbC2).s3Deleted
        = [fileC2.storage_path] :=
  commit_quota_rollback extTest [cfgC2] false (str "u1") .apikey bodyC2 dbC2
    (str "f1") fileC2 cfgC2 rfl (by decide) (by decide) (by decide) (by decide)
    (by decide) (by decide)

/-- A commit body with no ETag but a confirmed size and metadata;
90 + 5 stays within the 100 ceiling. -/
def bodyC7 : CommitBody :=
  { file_id := some (str "f1"), etag := none, size := some 5,
    password := some (str "pw!"), expires_in := .num 2,
    remark := some (str "note"), max_views := .num 3 }

/-- Witness for claim C7: the concrete no-ETag commit succeeds and persists
size and metadata, leaving only the `etag` column `NULL`. -/
theorem commit_without_etag_witness :
    (commitHandler extTest [cfgC2] false (str "u1") .apikey bodyC7 dbC2).outcome = .ok
    ∧ (commitHandler extTest [cfgC2] false (str "u1") .apikey bodyC7 dbC2).db.files
        = dbC2.files.map (fun f =>
            if f.id == str "f1" then
              { f with etag := none,
                       created_by := some (commitCreator .apikey (str "u1")),
                       remark := orNull bodyC7.remark,
                       password := hashedPasswordOf extTest bodyC7.password,
                       expires_at := fileExpiresAt extTest.nowPlusHours bodyC7.expires_in,
                       max_views := commitMaxViews bodyC7.max_views,
                       size := if (5 : Int) < 0 then 0 else 5 }
            else f) := by
  have h := commit_without_etag extTest [cfgC2] false (str "u1") .apikey bodyC7 dbC2
    (str "f1") fileC2 cfgC2 5 (str "E") rfl (by decide) (by decide) (by decide)
    (by decide) (by decide) (by decide) rfl rfl (by decide) (by decide)
  exact ⟨h.1, h.2.1⟩

/-- Witness for claim C6: the custom slug `s1` is already taken, so
allocation without override conflicts, allocation with override returns it
unchanged, and a malformed slug is a validation error. -/
theorem slug_allocation_custom_witness :
    generateUniqueFileSlug [fileC2] (some (str "s1")) false gen0 = .error .conflict
    ∧ generateUniqueFileSlug [fileC2] (some (str "s1")) true gen0 = .ok (str "s1")
    ∧ generateUniqueFileSlug [fileC2] (some (str "bad slug!")) false gen0
        = .error .invalidFormat := by
  have h1 := slug_allocation_custom [fileC2] (str "s1") false gen0 (by decide)
  have h2 := slug_allocation_custom [fileC2] (str "s1") true gen0 (by decide)
  have h3 := slug_allocation_custom [fileC2] (str "bad slug!") false gen0 (by decide)
  refine ⟨h1.2.1 (by decide) ⟨fileC2, List.mem_cons_self _ _, by decide⟩ rfl, ?_,
    h3.1 (by decide)⟩
  exact h2.2.2 (by decide) (Or.inl ⟨⟨fileC2, List.mem_cons_self _ _, by decide⟩, rfl⟩)

theorem computeStoragePath_error_forbidden {ext : ExtFns} {cfg : S3Config}
    {authType : AuthType} {basicPath : Option Str} {mounts : List MountRow}
    {customPath shortId safeFileName fileExt : Str} {useOrig : Bool} {e : ErrKind}
    (h : computeStoragePath ext cfg authType basicPath mounts customPath shortId
        safeFileName fileExt useOrig = .error e) :
    e = .forbidden := by
  simp only [computeStoragePath] at h
  split at h
  · split at h
    · split at h
      · injection h with h'
        exact h'.symm
      · simp at h
    · simp at h
  · simp at h
  · simp at h

theorem presign_falsy_size_aux (ext : ExtFns) (cfgs : List S3Config)
    (maxUploadSizeMB : Option Int) (isAdmin : Bool) (userId : Str) (authType : AuthType)
    (basicPath : Option Str) (mounts : List MountRow) (body : PresignBody)
    (gen : Nat → Str) (fileId shortId : Str) (db : Db)
    (hsize : sizeTruthy body.size = false) :
    (presignHandler ext cfgs maxUploadSizeMB isAdmin userId authType basicPath mounts
        body gen fileId shortId db).outcome ≠ .err .sizeLimitExceeded
    ∧ (presignHandler ext cfgs maxUploadSizeMB isAdmin userId authType basicPath mounts
        body gen fileId shortId db).outcome ≠ .err .capacityExceeded
    ∧ ((presignHandler ext cfgs maxUploadSizeMB isAdmin userId authType basicPath mounts
          body gen fileId shortId db).outcome = .ok →
        ∃ r ∈ (presignHandler ext cfgs maxUploadSizeMB isAdmin userId authType basicPath
            mounts body gen fileId shortId db).db.files,
          r.id = fileId ∧ r.size = 0 ∧ r.etag = none) := by
  simp only [presignHandler, hsize, Bool.false_and, Bool.false_eq_true, if_false]
  refine ⟨?_, ?_, ?_⟩
  · split
    · simp
    · split
      · simp
      · split
        · simp
        · split
          · simp
          · split
            · simp
            · simp
            · split
              · next e _ heq => simp [computeStoragePath_error_forbidden heq]
              · simp
  · split
    · simp
    · split
      · simp
      · split
        · simp
        · split
          · simp
          · split
            · simp
            · simp
            · split
              · next e _ heq => simp [computeStoragePath_error_forbidden heq]
              · simp
  · split
    · simp
    · split
      · simp
      · split
        · simp
        · split
          · simp
          · split
            · simp
            · simp
            · split
              · simp
              · intro _
                refine ⟨_, List.mem_append_right _ (List.mem_cons_self _ _), rfl, rfl, rfl⟩

/-- Claim C10 (implicit): a presign request with an omitted or falsy `size`
skips both the max-upload-size check and the capacity pre-check — it is
admitted at intent time regardless of remaining capacity or the configured
limit, and on success the placeholder FileRecord carries size 0 and a null
ETag; conversely a size-limit or capacity error at presign time implies a
truthy declared size. -/
theorem presign_falsy_size_admits (ext : ExtFns) (cfgs : List S3Config)
    (maxUploadSizeMB : Option Int) (isAdmin : Bool) (userId : Str) (authType : AuthType)
    (basicPath : Option Str) (mounts : List MountRow) (body : PresignBody)
    (gen : Nat → Str) (fileId shortId : Str) (db : Db) :
    (sizeTruthy body.size = false →
      (presignHandler ext cfgs maxUploadSizeMB isAdmin userId authType basicPath mounts
          body gen fileId shortId db).outcome ≠ .err .sizeLimitExceeded
      ∧ (presignHandler ext cfgs maxUploadSizeMB isAdmin userId authType basicPath mounts
          body gen fileId shortId db).outcome ≠ .err .capacityExceeded
      ∧ ((presignHandler ext cfgs maxUploadSizeMB isAdmin userId authType basicPath mounts
            body gen fileId shortId db).outcome = .ok →
          ∃ r ∈ (presignHandler ext cfgs maxUploadSizeMB isAdmin userId authType basicPath
              mounts body gen fileId shortId db).db.files,
            r.id = fileId ∧ r.size = 0 ∧ r.etag = none))
    ∧ (((presignHandler ext cfgs maxUploadSizeMB isAdmin userId authType basicPath mounts
          body gen fileId shortId db).outcome = .err .sizeLimitExceeded
        ∨ (presignHandler ext cfgs maxUploadSizeMB isAdmin userId authType basicPath mounts
            body gen fileId shortId db).outcome = .err .capacityExceeded) →
      sizeTruthy body.size = true) := by
  constructor
  · intro hsize
    exact presign_falsy_size_aux ext cfgs maxUploadSizeMB isAdmin userId authType basicPath
      mounts body gen fileId shortId db hsize
  · intro hout
    by_cases hsz : sizeTruthy body.size = true
    · exact hsz
    · exfalso
      have haux := presign_falsy_size_aux ext cfgs maxUploadSizeMB isAdmin userId authType
        basicPath mounts body gen fileId shortId db (by simpa using hsz)
      rcases hout with h | h
      · exact haux.1 h
      · exact haux.2.1 h

/-- A public configuration with a 10-byte ceiling, already over-used. -/
def cfgC10 : S3Config :=
  { id := str "c2", admin_id := some (str "alice"), is_public := 1, is_default := 0,
    total_storage_bytes := some 10, default_folder := none,
    provider_type := str "Other", bucket_name := str "b" }

/-- A record holding 50 bytes on the 10-byte-ceiling store. -/
def fileC10 : FileRecord :=
  { id := str "g1", slug := str "t1", filename := str "big.bin",
    storage_path := str "k/g1.bin", s3_url := str "url/k/g1.bin",
    s3_config_id := str "c2", mimetype := str "application/octet-stream",
    size := 50, etag := some (str "E5"), created_by := some (str "apikey:u"),
    remark := none, password := none, expires_at := none, max_views := none,
    use_proxy := none }

/-- The database for the C10 witness: usage already exceeds the ceiling. -/
def dbC10 : Db := ⟨[fileC10], []⟩

/-- A presign body that declares no size. -/
def bodyC10 : PresignBody :=
  { s3_config_id := some (str "c2"), filename := some (str "doc.pdf"),
    size := none, path := none, slug := none, override := false }

/-- Witness for claim C10: even though the store is already 40 bytes over
its ceiling, a presign request with no declared size is admitted and the
placeholder is created with size 0 and a null ETag. -/
theorem presign_falsy_size_admits_witness :
    (presignHandler extTest [cfgC10] none false (str "u") .apikey none [] bodyC10 gen0
        (str "nf") (str "sid") dbC10).outcome = .ok
    ∧ ∃ r ∈ (presignHandler extTest [cfgC10] none false (str "u") .apikey none [] bodyC10
        gen0 (str "nf") (str "sid") dbC10).db.files,
        r.id = str "nf" ∧ r.size = 0 ∧ r.etag = none := by
  have h := (presign_falsy_size_admits extTest [cfgC10] none false (str "u") .apikey none []
    bodyC10 gen0 (str "nf") (str "sid") dbC10).1 (by decide)
  have hok : (presignHandler extTest [cfgC10] none false (str "u") .apikey none [] bodyC10
      gen0 (str "nf") (str "sid") dbC10).outcome = .ok := by decide
  exact ⟨hok, h.2.2 hok⟩

/-- A public configuration without a ceiling, for the override scenarios. -/
def cfgC5 : S3Config :=
  { id := str "c1", admin_id := some (str "root"), is_public := 1, is_default := 0,
    total_storage_bytes := none, default_folder := none,
    provider_type := str "Other", bucket_name := str "b" }

/-- A record with slug `x` created by API key `alice`. -/
def fileC5 : FileRecord :=
  { id := str "f0", slug := str "x", filename := str "old.txt",
    storage_path := str "k/old.txt", s3_url := str "url/k/old.txt",
    s3_config_id := str "c1", mimetype := str "text/plain", size := 5,
    etag := none, created_by := some (str "apikey:alice"), remark := none,
    password := none, expires_at := none, max_views := none, use_proxy := none }

/-- The database for the C5 scenarios: `alice`'s record and its shadow. -/
def dbC5 : Db := ⟨[fileC5], [(str "f0", str "oldpw")]⟩

/-- A presign body reusing slug `x` with `override=true`. -/
def bodyC5 : PresignBody :=
  { s3_config_id := some (str "c1"), filename := some (str "new.txt"),
    size := none, path := none, slug := some (str "x"), override := true }

/-- Counterexample to claim C5: in the presign flow, an override of slug
`x` by API key `bob` — a different creator than `alice` who owns the
record — does not fail with a PermissionError: the request succeeds, the
original record and its password shadow are deleted, and the delete of its
backing object is issued.  The ownership check exists only in the direct
flow. -/
theorem override_ownership_presign_counterexample :
    presignCreatedBy .apikey (str "bob") ≠ fileC5.created_by
    ∧ (presignHandler extTest [cfgC5] none false (str "bob") .apikey none [] bodyC5 gen0
        (str "nf2") (str "sid") dbC5).outcome = .ok
    ∧ (presignHandler extTest [cfgC5] none false (str "bob") .apikey none [] bodyC5 gen0
        (str "nf2") (str "sid") dbC5).outcome ≠ .err .forbidden
    ∧ (presignHandler extTest [cfgC5] none false (str "bob") .apikey none [] bodyC5 gen0
        (str "nf2") (str "sid") dbC5).db.files.all (fun f => !(f.id == str "f0")) = true
    ∧ (presignHandler extTest [cfgC5] none false (str "bob") .apikey none [] bodyC5 gen0
        (str "nf2") (str "sid") dbC5).db.filePasswords = []
    ∧ (presignHandler extTest [cfgC5] none false (str "bob") .apikey none [] bodyC5 gen0
        (str "nf2") (str "sid") dbC5).s3Deleted = [str "k/old.txt"] := by
  decide

theorem direct_override_forbidden_aux (ext : ExtFns) (cfgs : List S3Config)
    (maxUploadSizeMB : Option Int) (isAdmin : Bool) (userId : Str) (authType : AuthType)
    (basicPath : Option Str) (mounts : List MountRow) (filename : Str) (q : DirectQuery)
    (fileSize : Int) (uploadedEtag : Option Str) (gen : Nat → Str) (fileId shortId : Str)
    (db : Db) (cid : Str) (cfg : S3Config) (s slugv : Str) (ex : FileRecord)
    (h1 : (authType == AuthType.apikey && optStrTruthy q.s3_config_id
        && !(cfgs.any (fun c => c.id == q.s3_config_id.getD [] && c.is_public == 1))) = false)
    (h2 : directResolveConfigId cfgs isAdmin userId q.s3_config_id = .ok cid)
    (h3 : cfgs.find? (fun c => c.id == cid) = some cfg)
    (h4 : (isAdmin && !(cfg.admin_id == some userId)) = false)
    (h5 : (authType == AuthType.apikey && !(cfg.is_public == 1)) = false)
    (h6 : ¬(fileSize > (maxUploadSizeMB.getD 100) * 1024 * 1024))
    (h7 : capacityRejects cfg.total_storage_bytes (usageOf db.files cid) fileSize = false)
    (h8 : generateUniqueFileSlug db.files q.slug q.override gen = .ok slugv)
    (hov : q.override = true) (hslug : q.slug = some s) (hst : strTruthy s = true)
    (hfind : db.files.find? (fun f => f.slug == s) = some ex)
    (hown : (ex.created_by == some (directCreatedBy isAdmin userId)) = false) :
    directHandler ext cfgs maxUploadSizeMB isAdmin userId authType basicPath mounts
      filename q fileSize uploadedEtag gen fileId shortId db = ⟨.err .forbidden, db, []⟩ := by
  have hst' : optStrTruthy (some s) = true := hst
  have hovr : directOverride cfgs db isAdmin userId q.override q.slug = .error .forbidden := by
    simp only [directOverride, hov, hslug, hst', Bool.and_self, if_true, Option.getD_some,
      hfind, hown, Bool.not_false]
  simp only [directHandler, h1, Bool.false_eq_true, if_false, h2, h3, h4, h5, h6, h7,
    if_true, h8, hovr]

theorem direct_override_roundtrip_aux (ext : ExtFns) (cfgs : List S3Config)
    (maxUploadSizeMB : Option Int) (isAdmin : Bool) (userId : Str) (authType : AuthType)
    (basicPath : Option Str) (mounts : List MountRow) (filename : Str) (q : DirectQuery)
    (fileSize : Int) (uploadedEtag : Option Str) (gen : Nat → Str) (fileId shortId : Str)
    (db : Db) (cid : Str) (cfg cex : S3Config) (s slugv storagePath : Str) (ex : FileRecord)
    (h1 : (authType == AuthType.apikey && optStrTruthy q.s3_config_id
        && !(cfgs.any (fun c => c.id == q.s3_config_id.getD [] && c.is_public == 1))) = false)
    (h2 : directResolveConfigId cfgs isAdmin userId q.s3_config_id = .ok cid)
    (h3 : cfgs.find? (fun c => c.id == cid) = some cfg)
    (h4 : (isAdmin && !(cfg.admin_id == some userId)) = false)
    (h5 : (authType == AuthType.apikey && !(cfg.is_public == 1)) = false)
    (h6 : ¬(fileSize > (maxUploadSizeMB.getD 100) * 1024 * 1024))
    (h7 : capacityRejects cfg.total_storage_bytes (usageOf db.files cid) fileSize = false)
    (h8 : generateUniqueFileSlug db.files q.slug q.override gen = .ok slugv)
    (hov : q.override = true) (hslug : q.slug = some s) (hst : strTruthy s = true)
    (hfind : db.files.find? (fun f => f.slug == s) = some ex)
    (hown : (ex.created_by == some (directCreatedBy isAdmin userId)) = true)
    (hcex : cfgs.find? (fun c => c.id == ex.s3_config_id) = some cex)
    (hsp : computeStoragePath ext cfg authType basicPath mounts (processCustomPath q.path)
        shortId ((ext.getSafeFileName (ext.getFileNameAndExt filename).1).take 50)
        (ext.getFileNameAndExt filename).2 q.original_filename = .ok storagePath)
    (huniq : db.files.filter (fun f => f.slug == s) = [ex])
    (hnew : (fileId == ex.id) = false) :
    (directHandler ext cfgs maxUploadSizeMB isAdmin userId authType basicPath mounts
        filename q fileSize uploadedEtag gen fileId shortId db).outcome = .ok
    ∧ ((directHandler ext cfgs maxUploadSizeMB isAdmin userId authType basicPath mounts
        filename q fileSize uploadedEtag gen fileId shortId db).db.files.filter
          (fun f => f.slug == s)).length = 1
    ∧ (∀ f ∈ (directHandler ext cfgs maxUploadSizeMB isAdmin userId authType basicPath
        mounts filename q fileSize uploadedEtag gen fileId shortId db).db.files,
        (f.id == ex.id) = false)
    ∧ (∀ pw ∈ (directHandler ext cfgs maxUploadSizeMB isAdmin userId authType basicPath
        mounts filename q fileSize uploadedEtag gen fileId shortId db).db.filePasswords,
        (pw.1 == ex.id) = false)
    ∧ ex.storage_path ∈ (directHandler ext cfgs maxUploadSizeMB isAdmin userId authType
        basicPath mounts filename q fileSize uploadedEtag gen fileId shortId db).s3Deleted := by
  have hst' : optStrTruthy (some s) = true := hst
  have hsv : slugv = s := by
    rw [hslug] at h8
    exact generateUniqueFileSlug_custom_ok hst h8
  have hovr : directOverride cfgs db isAdmin userId q.override q.slug
      = .ok (⟨db.files.filter (fun f => !(f.id == ex.id)),
              db.filePasswords.filter (fun p => !(p.1 == ex.id))⟩, [ex.storage_path]) := by
    simp only [directOverride, hov, hslug, hst', Bool.and_self, if_true, Option.getD_some,
      hfind, hown, Bool.not_true, Bool.false_eq_true, if_false, deleteExistingFileRecord,
      hcex]
  have hrun : directHandler ext cfgs maxUploadSizeMB isAdmin userId authType basicPath
      mounts filename q fileSize uploadedEtag gen fileId shortId db =
      ⟨.ok,
       ⟨db.files.filter (fun f => !(f.id == ex.id)) ++
          [{ id := fileId, slug := slugv, filename := filename,
             storage_path := storagePath, s3_url := ext.buildS3Url cfg storagePath,
             s3_config_id := cid, mimetype := ext.getMimeTypeFromFilename filename,
             size := fileSize, etag := uploadedEtag,
             created_by := some (directCreatedBy isAdmin userId),
             remark := some (q.remark.getD []),
             password := hashedPasswordOf ext q.password,
             expires_at := fileExpiresAt ext.nowPlusHours q.expires_in,
             max_views := directMaxViews q.max_views,
             use_proxy := some (if q.use_proxy_not_zero then 1 else 0) }],
        if optStrTruthy q.password then
          db.filePasswords.filter (fun p => !(p.1 == ex.id))
            ++ [(fileId, q.password.getD [])]
        else db.filePasswords.filter (fun p => !(p.1 == ex.id))⟩,
       [ex.storage_path]⟩ := by
    simp only [directHandler, h1, Bool.false_eq_true, if_false, h2, h3, h4, h5, h6, h7,
      if_true, h8, hovr, hsp]
  have honly : ∀ f ∈ db.files, (f.slug == s) = true → f = ex := by
    intro f hf hfs
    have hmem : f ∈ db.files.filter (fun f => f.slug == s) :=
      List.mem_filter.mpr ⟨hf, hfs⟩
    rw [huniq] at hmem
    simpa using hmem
  rw [hrun]
  dsimp only
  refine ⟨rfl, ?_, ?_, ?_, List.mem_singleton_self _⟩
  · rw [List.filter_append]
    have hleft : (db.files.filter (fun f => !(f.id == ex.id))).filter
        (fun f => f.slug == s) = [] := by
      rw [List.filter_eq_nil_iff]
      intro f hf hfs
      have h1' := List.mem_filter.mp hf
      have hfe := honly f h1'.1 hfs
      subst hfe
      simp at h1'
    rw [hleft]
    simp [hsv, hst]
  · intro f hf
    rcases List.mem_append.mp hf with hf1 | hf2
    · exact (by simpa using (List.mem_filter.mp hf1).2)
    · rcases List.mem_singleton.mp hf2 with rfl
      exact hnew
  · intro pw hpw
    by_cases hp : optStrTruthy q.password = true
    · rw [if_pos hp] at hpw
      rcases List.mem_append.mp hpw with hp1 | hp2
      · exact (by simpa using (List.mem_filter.mp hp1).2)
      · rcases List.mem_singleton.mp hp2 with rfl
        exact hnew
    · rw [if_neg hp] at hpw
      exact (by simpa using (List.mem_filter.mp hpw).2)

theorem presign_override_nocheck_aux (ext : ExtFns) (cfgs : List S3Config)
    (maxUploadSizeMB : Option Int) (isAdmin : Bool) (userId : Str) (authType : AuthType)
    (basicPath : Option Str) (mounts : List MountRow) (body : PresignBody)
    (gen : Nat → Str) (fileId shortId : Str) (db : Db) (cfg cex : S3Config)
    (s slugv storagePath : Str) (ex : FileRecord)
    (hcid : optStrTruthy body.s3_config_id = true)
    (hfn : optStrTruthy body.filename = true)
    (hsl : (sizeTruthy body.size
        && body.size.getD 0 > (maxUploadSizeMB.getD 100) * 1024 * 1024) = false)
    (hfcfg : cfgs.find? (fun c => c.id == body.s3_config_id.getD []) = some cfg)
    (hcap : (sizeTruthy body.size && capacityRejects cfg.total_storage_bytes
        (usageOf db.files (body.s3_config_id.getD [])) (body.size.getD 0)) = false)
    (hadm : (isAdmin && !(cfg.admin_id == some userId)) = false)
    (h8 : generateUniqueFileSlug db.files body.slug body.override gen = .ok slugv)
    (hov : body.override = true) (hslug : body.slug = some s) (hst : strTruthy s = true)
    (hfind : db.files.find? (fun f => f.slug == s) = some ex)
    (hcex : cfgs.find? (fun c => c.id == ex.s3_config_id) = some cex)
    (hsp : computeStoragePath ext cfg authType basicPath mounts
        (processCustomPath body.path) shortId
        ((ext.getSafeFileName (ext.getFileNameAndExt (body.filename.getD [])).1).take 50)
        (ext.getFileNameAndExt (body.filename.getD [])).2 false = .ok storagePath)
    (hnew : (fileId == ex.id) = false) :
    (presignHandler ext cfgs maxUploadSizeMB isAdmin userId authType basicPath mounts
        body gen fileId shortId db).outcome = .ok
    ∧ (∀ f ∈ (presignHandler ext cfgs maxUploadSizeMB isAdmin userId authType basicPath
        mounts body gen fileId shortId db).db.files, (f.id == ex.id) = false)
    ∧ (∀ pw ∈ (presignHandler ext cfgs maxUploadSizeMB isAdmin userId authType basicPath
        mounts body gen fileId shortId db).db.filePasswords, (pw.1 == ex.id) = false)
    ∧ ex.storage_path ∈ (presignHandler ext cfgs maxUploadSizeMB isAdmin userId authType
        basicPath mounts body gen fileId shortId db).s3Deleted := by
  have hst' : optStrTruthy (some s) = true := hst
  rw [hslug, hov] at h8
  have hrun : presignHandler ext cfgs maxUploadSizeMB isAdmin userId authType basicPath
      mounts body gen fileId shortId db =
      ⟨.ok,
       ⟨db.files.filter (fun f => !(f.id == ex.id)) ++
          [{ id := fileId, slug := slugv, filename := body.filename.getD [],
             storage_path := storagePath, s3_url := ext.buildS3Url cfg storagePath,
             s3_config_id := body.s3_config_id.getD [],
             mimetype := ext.getMimeTypeFromFilename (body.filename.getD []),
             size := 0, etag := none, created_by := presignCreatedBy authType userId,
             remark := none, password := none, expires_at := none, max_views := none,
             use_proxy := none }],
        db.filePasswords.filter (fun p => !(p.1 == ex.id))⟩,
       [ex.storage_path]⟩ := by
    simp only [presignHandler, hcid, hfn, Bool.not_true, Bool.false_eq_true, if_false,
      hsl, hfcfg, hcap, hadm, if_true, h8, hov, hslug, hst', Bool.and_self,
      Option.getD_some, hfind, deleteExistingFileRecord, hcex, hsp]
  rw [hrun]
  dsimp only
  refine ⟨rfl, ?_, ?_, List.mem_singleton_self _⟩
  · intro f hf
    rcases List.mem_append.mp hf with hf1 | hf2
    · exact (by simpa using (List.mem_filter.mp hf1).2)
    · rcases List.mem_singleton.mp hf2 with rfl
      exact hnew
  · intro pw hpw
    exact (by simpa using (List.mem_filter.mp hpw).2)

/-- Claim C5 (amended): override round-trip and ownership.  (a) In the
direct flow, an override of an existing slug by a caller other than the
record's creator fails with a PermissionError and leaves database and
object store untouched.  (b) In the direct flow, the creator's own
override deletes the old record, its password shadow and its object, and
leaves exactly one FileRecord for the slug.  (c) In the presign flow the
override deletion runs with no creator check: whoever the record's creator
is, the prior record, its shadow and its object are removed and the
request succeeds. -/
theorem override_roundtrip_ownership :
    (∀ (ext : ExtFns) (cfgs : List S3Config) (maxUploadSizeMB : Option Int)
        (isAdmin : Bool) (userId : Str) (authType : AuthType) (basicPath : Option Str)
        (mounts : List MountRow) (filename : Str) (q : DirectQuery) (fileSize : Int)
        (uploadedEtag : Option Str) (gen : Nat → Str) (fileId shortId : Str) (db : Db)
        (cid : Str) (cfg : S3Config) (s slugv : Str) (ex : FileRecord),
      (authType == AuthType.apikey && optStrTruthy q.s3_config_id
        && !(cfgs.any (fun c => c.id == q.s3_config_id.getD [] && c.is_public == 1)))
          = false →
      directResolveConfigId cfgs isAdmin userId q.s3_config_id = .ok cid →
      cfgs.find? (fun c => c.id == cid) = some cfg →
      (isAdmin && !(cfg.admin_id == some userId)) = false →
      (authType == AuthType.apikey && !(cfg.is_public == 1)) = false →
      ¬(fileSize > (maxUploadSizeMB.getD 100) * 1024 * 1024) →
      capacityRejects cfg.total_storage_bytes (usageOf db.files cid) fileSize = false →
      generateUniqueFileSlug db.files q.slug q.override gen = .ok slugv →
      q.override = true → q.slug = some s → strTruthy s = true →
      db.files.find? (fun f => f.slug == s) = some ex →
      (ex.created_by == some (directCreatedBy isAdmin userId)) = false →
      directHandler ext cfgs maxUploadSizeMB isAdmin userId authType basicPath mounts
        filename q fileSize uploadedEtag gen fileId shortId db = ⟨.err .forbidden, db, []⟩)
    ∧ (∀ (ext : ExtFns) (cfgs : List S3Config) (maxUploadSizeMB : Option Int)
        (isAdmin : Bool) (userId : Str) (authType : AuthType) (basicPath : Option Str)
        (mounts : List MountRow) (filename : Str) (q : DirectQuery) (fileSize : Int)
        (uploadedEtag : Option Str) (gen : Nat → Str) (fileId shortId : Str) (db : Db)
        (cid : Str) (cfg cex : S3Config) (s slugv storagePath : Str) (ex : FileRecord),
      (authType == AuthType.apikey && optStrTruthy q.s3_config_id
        && !(cfgs.any (fun c => c.id == q.s3_config_id.getD [] && c.is_public == 1)))
          = false →
      directResolveConfigId cfgs isAdmin userId q.s3_config_id = .ok cid →
      cfgs.find? (fun c => c.id == cid) = some cfg →
      (isAdmin && !(cfg.admin_id == some userId)) = false →
      (authType == AuthType.apikey && !(cfg.is_public == 1)) = false →
      ¬(fileSize > (maxUploadSizeMB.getD 100) * 1024 * 1024) →
      capacityRejects cfg.total_storage_bytes (usageOf db.files cid) fileSize = false →
      generateUniqueFileSlug db.files q.slug q.override gen = .ok slugv →
      q.override = true → q.slug = some s → strTruthy s = true →
      db.files.find? (fun f => f.slug == s) = some ex →
      (ex.created_by == some (directCreatedBy isAdmin userId)) = true →
      cfgs.find? (fun c => c.id == ex.s3_config_id) = some cex →
      computeStoragePath ext cfg authType basicPath mounts (processCustomPath q.path)
        shortId ((ext.getSafeFileName (ext.getFileNameAndExt filename).1).take 50)
        (ext.getFileNameAndExt filename).2 q.original_filename = .ok storagePath →
      db.files.filter (fun f => f.slug == s) = [ex] →
      (fileId == ex.id) = false →
      (directHandler ext cfgs maxUploadSizeMB isAdmin userId authType basicPath mounts
          filename q fileSize uploadedEtag gen fileId shortId db).outcome = .ok
      ∧ ((directHandler ext cfgs maxUploadSizeMB isAdmin userId authType basicPath mounts
          filename q fileSize uploadedEtag gen fileId shortId db).db.files.filter
            (fun f => f.slug == s)).length = 1
      ∧ (∀ f ∈ (directHandler ext cfgs maxUploadSizeMB isAdmin userId authType basicPath
          mounts filename q fileSize uploadedEtag gen fileId shortId db).db.files,
          (f.id == ex.id) = false)
      ∧ (∀ pw ∈ (directHandler ext cfgs maxUploadSizeMB isAdmin userId authType basicPath
          mounts filename q fileSize uploadedEtag gen fileId shortId db).db.filePasswords,
          (pw.1 == ex.id) = false)
      ∧ ex.storage_path ∈ (directHandler ext cfgs maxUploadSizeMB isAdmin userId authType
          basicPath mounts filename q fileSize uploadedEtag gen fileId shortId
          db).s3Deleted)
    ∧ (∀ (ext : ExtFns) (cfgs : List S3Config) (maxUploadSizeMB : Option Int)
        (isAdmin : Bool) (userId : Str) (authType : AuthType) (basicPath : Option Str)
        (mounts : List MountRow) (body : PresignBody) (gen : Nat → Str)
        (fileId shortId : Str) (db : Db) (cfg cex : S3Config)
        (s slugv storagePath : Str) (ex : FileRecord),
      optStrTruthy body.s3_config_id = true →
      optStrTruthy body.filename = true →
      (sizeTruthy body.size
        && body.size.getD 0 > (maxUploadSizeMB.getD 100) * 1024 * 1024) = false →
      cfgs.find? (fun c => c.id == body.s3_config_id.getD []) = some cfg →
      (sizeTruthy body.size && capacityRejects cfg.total_storage_bytes
        (usageOf db.files (body.s3_config_id.getD [])) (body.size.getD 0)) = false →
      (isAdmin && !(cfg.admin_id == some userId)) = false →
      generateUniqueFileSlug db.files body.slug body.override gen = .ok slugv →
      body.override = true → body.slug = some s → strTruthy s = true →
      db.files.find? (fun f => f.slug == s) = some ex →
      cfgs.find? (fun c => c.id == ex.s3_config_id) = some cex →
      computeStoragePath ext cfg authType basicPath mounts (processCustomPath body.path)
        shortId
        ((ext.getSafeFileName (ext.getFileNameAndExt (body.filename.getD [])).1).take 50)
        (ext.getFileNameAndExt (body.filename.getD [])).2 false = .ok storagePath →
      (fileId == ex.id) = false →
      (presignHandler ext cfgs maxUploadSizeMB isAdmin userId authType basicPath mounts
          body gen fileId shortId db).outcome = .ok
      ∧ (∀ f ∈ (presignHandler ext cfgs maxUploadSizeMB isAdmin userId authType basicPath
          mounts body gen fileId shortId db).db.files, (f.id == ex.id) = false)
      ∧ (∀ pw ∈ (presignHandler ext cfgs maxUploadSizeMB isAdmin userId authType basicPath
          mounts body gen fileId shortId db).db.filePasswords, (pw.1 == ex.id) = false)
      ∧ ex.storage_path ∈ (presignHandler ext cfgs maxUploadSizeMB isAdmin userId authType
          basicPath mounts body gen fileId shortId db).s3Deleted) := by
  refine ⟨?_, ?_, ?_⟩
  · intro ext cfgs maxUploadSizeMB isAdmin userId authType basicPath mounts filename q
      fileSize uploadedEtag gen fileId shortId db cid cfg s slugv ex
      h1 h2 h3 h4 h5 h6 h7 h8 hov hslug hst hfind hown
    exact direct_override_forbidden_aux ext cfgs maxUploadSizeMB isAdmin userId authType
      basicPath mounts filename q fileSize uploadedEtag gen fileId shortId db cid cfg
      s slugv ex h1 h2 h3 h4 h5 h6 h7 h8 hov hslug hst hfind hown
  · intro ext cfgs maxUploadSizeMB isAdmin userId authType basicPath mounts filename q
      fileSize uploadedEtag gen fileId shortId db cid cfg cex s slugv storagePath ex
      h1 h2 h3 h4 h5 h6 h7 h8 hov hslug hst hfind hown hcex hsp huniq hnew
    exact direct_override_roundtrip_aux ext cfgs maxUploadSizeMB isAdmin userId authType
      basicPath mounts filename q fileSize uploadedEtag gen fileId shortId db cid cfg cex
      s slugv storagePath ex h1 h2 h3 h4 h5 h6 h7 h8 hov hslug hst hfind hown hcex hsp
      huniq hnew
  · intro ext cfgs maxUploadSizeMB isAdmin userId authType basicPath mounts body gen
      fileId shortId db cfg cex s slugv storagePath ex
      hcid hfn hsl hfcfg hcap hadm h8 hov hslug hst hfind hcex hsp hnew
    exact presign_override_nocheck_aux ext cfgs maxUploadSizeMB isAdmin userId authType
      basicPath mounts body gen fileId shortId db cfg cex s slugv storagePath ex
      hcid hfn hsl hfcfg hcap hadm h8 hov hslug hst hfind hcex hsp hnew

/-- The direct-flow query for the C5 witness: override of slug `x`. -/
def qC5 : DirectQuery :=
  { s3_config_id := some (str "c1"), slug := some (str "x"), path := none,
    remark := none, password := none, expires_in := .absent, max_views := .absent,
    override := true, original_filename := false, use_proxy_not_zero := true }

/-- Witness for claim C5 (amended): API key `bob` attempting the direct
override of `alice`'s slug `x` gets a 403 and the database and object
store are untouched. -/
theorem override_roundtrip_ownership_witness :
    directHandler extTest [cfgC5] none false (str "bob") .apikey none [] (str "new.txt")
      qC5 3 (some (str "E9")) gen0 (str "nf3") (str "sid") dbC5
      = ⟨.err .forbidden, dbC5, []⟩ :=
  (override_roundtrip_ownership).1 extTest [cfgC5] none false (str "bob") .apikey none []
    (str "new.txt") qC5 3 (some (str "E9")) gen0 (str "nf3") (str "sid") dbC5
    (str "c1") cfgC5 (str "x") (str "x") fileC5 (by decide) (by rfl) (by decide)
    (by decide) (by decide) (by decide) (by decide) (by rfl) rfl rfl (by decide)
    (by decide) (by decide)

/-- A commit body supplying the expiry sentinel `"never"` (a non-numeric
`expires_in`, which `parseInt` turns into `NaN`). -/
def bodyC8 : CommitBody :=
  { file_id := some (str "f1"), etag := some (str "E"), size := some 5,
    password := none, expires_in := .nonNumeric, remark := none, max_views := .absent }

/-- Counterexample to claim C8: committing a file record with the expiry
sentinel (`"never"` / null `expires_in`) stores a `NULL` expiry, not the
fixed far-future timestamp — the far-future mapping exists only in the
API-key operations. -/
theorem expiry_sentinel_counterexample :
    bodyC8.expires_in = .nonNumeric
    ∧ (commitHandler extTest [cfgC2] false (str "u1") .apikey bodyC8 dbC2).outcome = .ok
    ∧ ((commitHandler extTest [cfgC2] false (str "u1") .apikey bodyC8 dbC2).db.files.find?
        (fun r => r.id == str "f1")).map FileRecord.expires_at = some none
    ∧ some API_KEY_NEVER_EXPIRES ≠ (none : Option Str) := by
  decide

/-- A configuration owned by administrator `alice`. -/
def cfgC9 : S3Config :=
  { id := str "c3", admin_id := some (str "alice"), is_public := 1, is_default := 0,
    total_storage_bytes := none, default_folder := none,
    provider_type := str "Other", bucket_name := str "b" }

/-- A presign body for the creator-identity counterexample. -/
def bodyC9 : PresignBody :=
  { s3_config_id := some (str "c3"), filename := some (str "a.bin"), size := none,
    path := none, slug := none, override := false }

/-- Counterexample to claim C9: the record a presign by administrator
`alice` creates carries `created_by = "alice"`, the bare id — not the
`admin:alice` form the claim states. -/
theorem creator_identity_counterexample :
    (presignHandler extTest [cfgC9] none true (str "alice") .admin none [] bodyC9 gen0
        (str "nf4") (str "sid") ⟨[], []⟩).outcome = .ok
    ∧ (presignHandler extTest [cfgC9] none true (str "alice") .admin none [] bodyC9 gen0
        (str "nf4") (str "sid") ⟨[], []⟩).db.files.map FileRecord.created_by
        = [some (str "alice")]
    ∧ strStartsWith (str "alice") (str "admin:") = false := by
  decide
